import Mathlib

/-!
Verification development for the Task & Pomodoro Session Engine of the
manovyam repository.  The definitions below are a shallow embedding of

* `src/models/Task.ts`                                  (data model),
* `src/services/implementations/LocalTaskService.ts`    (Task Repository and
  Session Recorder over localStorage),
* `src/viewmodels/useTaskViewModel.ts`                  (the Pomodoro Timer
  Engine: `startTask`, `togglePause`, `stopTask`, `completeTask` and the
  once-per-second countdown effect),
* `src/store/taskAtoms.ts`                              (the `TimerState`
  atom and its initial value).

Modelling conventions:

* `Date` timestamps are `Int` milliseconds since the epoch; `new Date()`
  becomes an explicit `now : Int` argument captured at call time.
* JS numbers that only ever hold integers (`actualMinutes`,
  `durationMinutes`, `timeRemaining`, `workDuration`, ...) are `Int`.
* The source generates opaque unique ids as strings such as
  `task_` ++ Date.now() ++ `_` ++ random.  Ids are modelled as naturals
  handed out by a monotone per-kind counter, which captures exactly the
  freshness of ids that the source relies on.
* A TypeScript DTO (partial) field is an `Option`: `none` means the key is
  absent, so the object spread `\x7b ...stored, ...dto \x7d` keeps the stored
  value.  For `UpdateSessionDto.achievement/pending/notes` the key can be
  present with value `undefined` (the object literal built by `stopTask`
  always contains the keys `achievement` and `pending`), so those fields
  are `Option (Option String)`: `some v` means the key is present with
  value `v`, and the spread then overwrites the stored value with `v`.
* `async` service methods that can `throw` are `Except String`; the
  localStorage round-trip (`getTasks`/`saveTasks`, ...) is the identity on
  the modelled `Storage`.
-/

namespace Manovyam

inductive TaskStatus
  | todo
  | in_progress
  | done
  | cancelled
deriving DecidableEq, Inhabited, Repr

inductive TaskPriority
  | low
  | medium
  | high
deriving DecidableEq, Inhabited, Repr

inductive SessionType
  | pomodoro
  | short_break
  | long_break
deriving DecidableEq, Inhabited, Repr

/-- The `Task` interface of `src/models/Task.ts`. -/
structure Task where
  id : Nat
  noteId : Option String
  title : String
  description : Option String
  status : TaskStatus
  priority : TaskPriority
  dueDate : Option Int
  estimatedMinutes : Option Int
  actualMinutes : Int
  tags : List String
  createdAt : Int
  updatedAt : Int
  completedAt : Option Int
deriving DecidableEq, Inhabited, Repr

/-- The `TaskSession` interface of `src/models/Task.ts`. -/
structure TaskSession where
  id : Nat
  taskId : Nat
  startedAt : Int
  endedAt : Option Int
  durationMinutes : Int
  type : SessionType
  completed : Bool
  achievement : Option String
  pending : Option String
  notes : Option String
deriving DecidableEq, Inhabited, Repr

/-- The `CreateTaskDto` interface of `src/models/Task.ts`. -/
structure CreateTaskDto where
  noteId : Option String := none
  title : String
  description : Option String := none
  priority : Option TaskPriority := none
  dueDate : Option Int := none
  estimatedMinutes : Option Int := none
  tags : Option (List String) := none
deriving DecidableEq, Repr

/-- The `UpdateTaskDto` interface of `src/models/Task.ts`.

The TypeScript interface does not declare `actualMinutes`, but
`LocalTaskService.updateSession` passes `\x7b actualMinutes: ... \x7d` to
`updateTask`, and at runtime the spread merges it like any other field, so
the modelled partial carries it; the user-facing operations
(`useTaskViewModel.updateTask`, `startTask`, `completeTask`) never set it. -/
structure UpdateTaskDto where
  title : Option String := none
  description : Option String := none
  status : Option TaskStatus := none
  priority : Option TaskPriority := none
  dueDate : Option Int := none
  estimatedMinutes : Option Int := none
  tags : Option (List String) := none
  actualMinutes : Option Int := none
deriving DecidableEq, Repr

/-- The `CreateSessionDto` interface of `src/models/Task.ts`. -/
structure CreateSessionDto where
  taskId : Nat
  type : Option SessionType := none
deriving DecidableEq, Repr

/-- The `UpdateSessionDto` interface of `src/models/Task.ts`.
`achievement`/`pending`/`notes` distinguish key-absent (`none`) from
key-present-with-`undefined` (`some none`), see the file header. -/
structure UpdateSessionDto where
  endedAt : Option Int := none
  durationMinutes : Option Int := none
  completed : Option Bool := none
  achievement : Option (Option String) := none
  pending : Option (Option String) := none
  notes : Option (Option String) := none
deriving DecidableEq, Repr

/-- The `PomodoroSettings` interface of `src/models/Task.ts`. -/
structure PomodoroSettings where
  workDuration : Int
  shortBreakDuration : Int
  longBreakDuration : Int
  sessionsUntilLongBreak : Int
  autoStartBreaks : Bool
  autoStartPomodoros : Bool
deriving DecidableEq, Inhabited, Repr

/-- `DEFAULT_POMODORO_SETTINGS` of `src/models/Task.ts`. -/
def DEFAULT_POMODORO_SETTINGS : PomodoroSettings :=
  { workDuration := 25
    shortBreakDuration := 5
    longBreakDuration := 15
    sessionsUntilLongBreak := 4
    autoStartBreaks := false
    autoStartPomodoros := false }

/-- The persisted content of the two localStorage keys used by
`LocalTaskService` (`manovyam-tasks` and `manovyam-task-sessions`). -/
structure Storage where
  tasks : List Task
  sessions : List TaskSession
deriving DecidableEq, Inhabited, Repr

namespace LocalTaskService

/-- `getTaskById`: `tasks.find((task) => task.id === id) || null`. -/
def getTaskById (st : Storage) (id : Nat) : Option Task :=
  st.tasks.find? (fun t => t.id == id)

/-- The `newTask` record literal built by `createTask`: `status: "todo"`,
`priority: dto.priority || "medium"`, `actualMinutes: 0`,
`tags: dto.tags || []`, both timestamps stamped to now, no `completedAt`.
`newId` stands for the freshly generated unique id. -/
def newTaskRecord (dto : CreateTaskDto) (newId : Nat) (now : Int) : Task :=
  { id := newId
    noteId := dto.noteId
    title := dto.title
    description := dto.description
    status := TaskStatus.todo
    priority := dto.priority.getD TaskPriority.medium
    dueDate := dto.dueDate
    estimatedMinutes := dto.estimatedMinutes
    actualMinutes := 0
    tags := dto.tags.getD []
    createdAt := now
    updatedAt := now
    completedAt := none }

/-- `createTask`: builds the new task record and pushes it at the end of
the stored list. -/
def createTask (st : Storage) (dto : CreateTaskDto) (newId : Nat) (now : Int) :
    Storage × Task :=
  ({ st with tasks := st.tasks ++ [newTaskRecord dto newId now] },
    newTaskRecord dto newId now)

/-- The record built by `updateTask`:
`\x7b ...tasks[index], ...dto, updatedAt: new Date(), completedAt: dto.status
=== "done" && !tasks[index].completedAt ? new Date() : tasks[index].completedAt \x7d`. -/
def applyTaskUpdate (t : Task) (dto : UpdateTaskDto) (now : Int) : Task :=
  { id := t.id
    noteId := t.noteId
    title := dto.title.getD t.title
    description := dto.description.elim t.description some
    status := dto.status.getD t.status
    priority := dto.priority.getD t.priority
    dueDate := dto.dueDate.elim t.dueDate some
    estimatedMinutes := dto.estimatedMinutes.elim t.estimatedMinutes some
    actualMinutes := dto.actualMinutes.getD t.actualMinutes
    tags := dto.tags.getD t.tags
    createdAt := t.createdAt
    updatedAt := now
    completedAt :=
      if dto.status = some TaskStatus.done ∧ t.completedAt = none then some now
      else t.completedAt }

/-- `findIndex` followed by in-place replacement of `tasks[index]`:
replaces the first task whose id matches, returning the new list and the
updated record, or `none` when no task matches. -/
def updateTaskList (l : List Task) (id : Nat) (dto : UpdateTaskDto) (now : Int) :
    Option (List Task × Task) :=
  match l with
  | [] => none
  | t :: ts =>
    if t.id = id then
      some (applyTaskUpdate t dto now :: ts, applyTaskUpdate t dto now)
    else
      match updateTaskList ts id dto now with
      | none => none
      | some (ts', u) => some (t :: ts', u)

/-- `updateTask`: throws `"Task not found"` when `findIndex` returns -1,
otherwise merges the partial into the stored record and saves. -/
def updateTask (st : Storage) (id : Nat) (dto : UpdateTaskDto) (now : Int) :
    Except String (Storage × Task) :=
  match updateTaskList st.tasks id dto now with
  | none => Except.error "Task not found"
  | some (tasks', u) => Except.ok ({ st with tasks := tasks' }, u)

/-- `deleteTask`: `tasks.filter((task) => task.id !== id)`; note that an
unknown id is not an error, the filter simply removes nothing. -/
def deleteTask (st : Storage) (id : Nat) : Storage :=
  { st with tasks := st.tasks.filter (fun t => t.id ≠ id) }

/-- The `newSession` record literal built by `createSession`:
`startedAt: new Date()`, `type: dto.type || "pomodoro"`,
`durationMinutes: 0`, `completed: false`, no `endedAt`.  `newId` stands
for the freshly generated unique id. -/
def newSessionRecord (dto : CreateSessionDto) (newId : Nat) (now : Int) : TaskSession :=
  { id := newId
    taskId := dto.taskId
    startedAt := now
    endedAt := none
    durationMinutes := 0
    type := dto.type.getD SessionType.pomodoro
    completed := false
    achievement := none
    pending := none
    notes := none }

/-- `createSession`: builds the new session record and pushes it at the
end of the stored list. -/
def createSession (st : Storage) (dto : CreateSessionDto) (newId : Nat) (now : Int) :
    Storage × TaskSession :=
  ({ st with sessions := st.sessions ++ [newSessionRecord dto newId now] },
    newSessionRecord dto newId now)

/-- The record built by `updateSession`'s spread
`\x7b ...sessions[index], ...dto \x7d`. -/
def applySessionUpdate (s : TaskSession) (dto : UpdateSessionDto) : TaskSession :=
  { id := s.id
    taskId := s.taskId
    startedAt := s.startedAt
    endedAt := dto.endedAt.elim s.endedAt some
    durationMinutes := dto.durationMinutes.getD s.durationMinutes
    type := s.type
    completed := dto.completed.getD s.completed
    achievement := dto.achievement.getD s.achievement
    pending := dto.pending.getD s.pending
    notes := dto.notes.getD s.notes }

/-- `findIndex` followed by in-place replacement of `sessions[index]`. -/
def updateSessionList (l : List TaskSession) (id : Nat) (dto : UpdateSessionDto) :
    Option (List TaskSession × TaskSession) :=
  match l with
  | [] => none
  | s :: ss =>
    if s.id = id then
      some (applySessionUpdate s dto :: ss, applySessionUpdate s dto)
    else
      match updateSessionList ss id dto with
      | none => none
      | some (ss', u) => some (s :: ss', u)

/-- `updateSession`: throws `"Session not found"` when `findIndex` returns
-1; otherwise merges the partial and saves the sessions, then — only when
`dto.durationMinutes` is truthy (present and non-zero) and the owning task
still exists — increments that task's `actualMinutes` through
`updateTask`.  A missing owning task is silently skipped.  `now` models
the `new Date()` stamped by the nested `updateTask` call. -/
def updateSession (st : Storage) (id : Nat) (dto : UpdateSessionDto) (now : Int) :
    Except String (Storage × TaskSession) :=
  match updateSessionList st.sessions id dto with
  | none => Except.error "Session not found"
  | some (sessions', u) =>
    let st1 : Storage := { st with sessions := sessions' }
    match dto.durationMinutes with
    | none => Except.ok (st1, u)
    | some d =>
      if d = 0 then Except.ok (st1, u)
      else
        match getTaskById st1 u.taskId with
        | none => Except.ok (st1, u)
        | some task =>
          match updateTask st1 task.id
              { actualMinutes := some (task.actualMinutes + d) } now with
          | Except.error e => Except.error e
          | Except.ok (st2, _) => Except.ok (st2, u)

end LocalTaskService

/-- The `PomodoroTimerState` interface of `src/store/taskAtoms.ts`. -/
structure TimerState where
  isRunning : Bool
  isPaused : Bool
  timeRemaining : Int
  totalTime : Int
  sessionType : SessionType
  completedPomodoros : Int
deriving DecidableEq, Inhabited, Repr

/-- Initial value of `pomodoroTimerAtom` in `src/store/taskAtoms.ts`. -/
def initialTimerState : TimerState :=
  { isRunning := false
    isPaused := false
    timeRemaining := 25 * 60
    totalTime := 25 * 60
    sessionType := SessionType.pomodoro
    completedPomodoros := 0 }

namespace Engine

/-- The state touched by `useTaskViewModel`: the persisted `Storage`, the
`currentSessionAtom` / `activeTaskIdAtom` / `pomodoroTimerAtom` /
`pomodoroSettingsAtom` atoms, and two counters supplying the fresh opaque
ids that the source draws from `Date.now()` plus randomness (the
`tasksAtom` / `taskSessionsAtom` mirrors of `Storage` are not duplicated
in the model). -/
structure EngineState where
  storage : Storage
  currentSession : Option TaskSession
  activeTaskId : Option Nat
  timer : TimerState
  settings : PomodoroSettings
  nextTaskId : Nat
  nextSessionId : Nat
deriving DecidableEq, Inhabited, Repr

/-- `useTaskViewModel.createTask`: calls the service and mirrors the new
task into `tasksAtom`. -/
def createTask (e : EngineState) (dto : CreateTaskDto) (now : Int) : EngineState :=
  let r := LocalTaskService.createTask e.storage dto e.nextTaskId now
  { e with storage := r.1, nextTaskId := e.nextTaskId + 1 }

/-- `useTaskViewModel.updateTask`: calls the service; on a thrown error the
storage is untouched (the error is surfaced through `errorAtom` and
rethrown).  Callers of the hook can only pass `UpdateTaskDto` fields, so
`dto.actualMinutes = none` is required at the `Step` relation below. -/
def updateTask (e : EngineState) (id : Nat) (dto : UpdateTaskDto) (now : Int) :
    EngineState :=
  match LocalTaskService.updateTask e.storage id dto now with
  | Except.error _ => e
  | Except.ok (st', _) => { e with storage := st' }

/-- `useTaskViewModel.deleteTask`. -/
def deleteTask (e : EngineState) (id : Nat) : EngineState :=
  { e with storage := LocalTaskService.deleteTask e.storage id }

/-- A direct `createSession` call on the service surface (the Session
Recorder's `open`); it does not touch the viewmodel atoms. -/
def createSession (e : EngineState) (dto : CreateSessionDto) (now : Int) : EngineState :=
  let r := LocalTaskService.createSession e.storage dto e.nextSessionId now
  { e with storage := r.1, nextSessionId := e.nextSessionId + 1 }

/-- `useTaskViewModel.startTask`: first updates the task to `in_progress`
(on a thrown `NotFound` nothing else runs), then opens a session with the
bare `\x7b taskId \x7d` dto, stores it in `currentSessionAtom` and
`activeTaskIdAtom`, and initializes the timer from
`pomodoroSettings.workDuration * 60`, keeping `completedPomodoros`. -/
def startTask (e : EngineState) (taskId : Nat) (now : Int) : EngineState :=
  match LocalTaskService.updateTask e.storage taskId
      { status := some TaskStatus.in_progress } now with
  | Except.error _ => e
  | Except.ok (st1, _) =>
    let r := LocalTaskService.createSession st1 { taskId := taskId } e.nextSessionId now
    { e with
      storage := r.1
      nextSessionId := e.nextSessionId + 1
      currentSession := some r.2
      activeTaskId := some taskId
      timer :=
        { isRunning := true
          isPaused := false
          timeRemaining := e.settings.workDuration * 60
          totalTime := e.settings.workDuration * 60
          sessionType := SessionType.pomodoro
          completedPomodoros := e.timer.completedPomodoros } }

/-- `useTaskViewModel.togglePause`: flips `isPaused`. -/
def togglePause (e : EngineState) : EngineState :=
  { e with timer := { e.timer with isPaused := !e.timer.isPaused } }

/-- `useTaskViewModel.stopTask(achievement?, pending?)`: a no-op without a
current session; otherwise computes `durationMinutes` as
`Math.floor((now - currentSession.startedAt) / 1000 / 60)` and closes the
session with `endedAt = now`, `completed = timerState.timeRemaining <= 0`
and the two optional texts (the object literal always contains the
`achievement`/`pending` keys, hence `some ach`/`some pend`).  Only when
`updateSession` returns without throwing are `currentSessionAtom` cleared
and the timer reset to `isRunning=false, isPaused=false, timeRemaining =
workDuration*60`. -/
def stopDto (e : EngineState) (now : Int) (ach pend : Option String)
    (cs : TaskSession) : UpdateSessionDto :=
  { endedAt := some now
    durationMinutes := some (Int.fdiv (now - cs.startedAt) 60000)
    completed := some (decide (e.timer.timeRemaining ≤ 0))
    achievement := some ach
    pending := some pend }

def stopTask (e : EngineState) (now : Int) (ach pend : Option String) : EngineState :=
  match e.currentSession with
  | none => e
  | some cs =>
    match LocalTaskService.updateSession e.storage cs.id
        (stopDto e now ach pend cs) now with
    | Except.error _ => e
    | Except.ok p =>
      { e with
        storage := p.1
        currentSession := none
        timer :=
          { e.timer with
            isRunning := false
            isPaused := false
            timeRemaining := e.settings.workDuration * 60 } }

/-- `useTaskViewModel.completeTask`: `updateTask(taskId, \x7b status: "done" \x7d)`. -/
def completeTask (e : EngineState) (taskId : Nat) (now : Int) : EngineState :=
  updateTask e taskId { status := some TaskStatus.done } now

/-- One firing of the countdown `setInterval` callback in
`useTaskViewModel` (the effect only installs the interval while
`isRunning && !isPaused`): decrement `timeRemaining`; when the new value
is `<= 0` clamp it to `0`, stop the timer and count the completed
pomodoro.  Storage and the current session are never touched. -/
def tick (e : EngineState) : EngineState :=
  if e.timer.isRunning && !e.timer.isPaused then
    { e with timer :=
        if e.timer.timeRemaining - 1 ≤ 0 then
          { e.timer with
            isRunning := false
            timeRemaining := 0
            completedPomodoros := e.timer.completedPomodoros + 1 }
        else
          { e.timer with timeRemaining := e.timer.timeRemaining - 1 } }
  else e

/-- `useTaskViewModel.updatePomodoroSettings(partial)` merges a partial
into the settings; since every combination of fields can be supplied, the
reachable settings values are exactly the arbitrary replacements modelled
here. -/
def updateSettings (e : EngineState) (s : PomodoroSettings) : EngineState :=
  { e with settings := s }

/-- The initial process state: empty storage, no current session, the
`pomodoroTimerAtom` initial value, default Pomodoro settings. -/
def initEngine : EngineState :=
  { storage := { tasks := [], sessions := [] }
    currentSession := none
    activeTaskId := none
    timer := initialTimerState
    settings := DEFAULT_POMODORO_SETTINGS
    nextTaskId := 0
    nextSessionId := 0 }

/-- One step of the Task & Pomodoro engine: any of the operations the
viewmodel exposes to the UI, plus a direct Session Recorder `open`
(`createSession`), each happening at an arbitrary wall-clock instant
`now`.  The `updateTask` step carries the fact that `UpdateTaskDto` as
declared in `src/models/Task.ts` has no `actualMinutes` field, so hook
callers cannot set it directly. -/
inductive Step : EngineState → EngineState → Prop
  | createTask (e : EngineState) (dto : CreateTaskDto) (now : Int) :
      Step e (createTask e dto now)
  | updateTask (e : EngineState) (id : Nat) (dto : UpdateTaskDto) (now : Int)
      (h : dto.actualMinutes = none) :
      Step e (updateTask e id dto now)
  | deleteTask (e : EngineState) (id : Nat) :
      Step e (deleteTask e id)
  | createSession (e : EngineState) (dto : CreateSessionDto) (now : Int) :
      Step e (createSession e dto now)
  | startTask (e : EngineState) (taskId : Nat) (now : Int) :
      Step e (startTask e taskId now)
  | togglePause (e : EngineState) :
      Step e (togglePause e)
  | stopTask (e : EngineState) (now : Int) (ach pend : Option String) :
      Step e (stopTask e now ach pend)
  | completeTask (e : EngineState) (taskId : Nat) (now : Int) :
      Step e (completeTask e taskId now)
  | tick (e : EngineState) :
      Step e (tick e)
  | updateSettings (e : EngineState) (s : PomodoroSettings) :
      Step e (updateSettings e s)

/-- States reachable from the empty initial state by engine operations. -/
def Reachable (e : EngineState) : Prop :=
  Relation.ReflTransGen Step initEngine e

/-- Number of stored sessions with `endedAt = null`. -/
def openSessionCount (ss : List TaskSession) : Nat :=
  (ss.filter (fun s => s.endedAt.isNone)).length

/-- Sum of `durationMinutes` over the stored sessions of task `tid` that
have been closed (`endedAt` set). -/
def closedSum (ss : List TaskSession) (tid : Nat) : Int :=
  ((ss.filter (fun s => s.taskId == tid && s.endedAt.isSome)).map
    TaskSession.durationMinutes).sum

/-- The guarded engine step: identical to `Step` except that `startTask`
and a direct `createSession` are only taken in states with no open
session — the calling discipline the spec's invariant presumes, which the
source itself does not enforce (its §9 open question). -/
inductive GStep : EngineState → EngineState → Prop
  | createTask (e : EngineState) (dto : CreateTaskDto) (now : Int) :
      GStep e (createTask e dto now)
  | updateTask (e : EngineState) (id : Nat) (dto : UpdateTaskDto) (now : Int)
      (h : dto.actualMinutes = none) :
      GStep e (updateTask e id dto now)
  | deleteTask (e : EngineState) (id : Nat) :
      GStep e (deleteTask e id)
  | createSession (e : EngineState) (dto : CreateSessionDto) (now : Int)
      (h : openSessionCount e.storage.sessions = 0) :
      GStep e (createSession e dto now)
  | startTask (e : EngineState) (taskId : Nat) (now : Int)
      (h : openSessionCount e.storage.sessions = 0) :
      GStep e (startTask e taskId now)
  | togglePause (e : EngineState) :
      GStep e (togglePause e)
  | stopTask (e : EngineState) (now : Int) (ach pend : Option String) :
      GStep e (stopTask e now ach pend)
  | completeTask (e : EngineState) (taskId : Nat) (now : Int) :
      GStep e (completeTask e taskId now)
  | tick (e : EngineState) :
      GStep e (tick e)
  | updateSettings (e : EngineState) (s : PomodoroSettings) :
      GStep e (updateSettings e s)

/-- States reachable under the guarded calling discipline. -/
def GReachable (e : EngineState) : Prop :=
  Relation.ReflTransGen GStep initEngine e

end Engine

/-! Helper lemmas about `find?` and the replace-first operations. -/

theorem find?_some_decomp {α : Type} (p : α → Bool) (l : List α) (a : α)
    (h : l.find? p = some a) :
    p a = true ∧ ∃ l1 l2, l = l1 ++ a :: l2 ∧ ∀ x ∈ l1, p x = false := by
  induction l with
  | nil => simp at h
  | cons b bs ih =>
    cases hb : p b with
    | true =>
      rw [List.find?_cons_of_pos _ hb] at h
      cases h
      exact ⟨hb, [], bs, rfl, by simp⟩
    | false =>
      rw [List.find?_cons_of_neg _ (by simp [hb])] at h
      obtain ⟨hpa, l1, l2, rfl, hl1⟩ := ih h
      refine ⟨hpa, b :: l1, l2, rfl, ?_⟩
      intro x hx
      rcases List.mem_cons.mp hx with rfl | hx
      · exact hb
      · exact hl1 x hx

theorem find?_append_cons {α : Type} (p : α → Bool) (l1 l2 : List α) (a : α)
    (h1 : ∀ x ∈ l1, p x = false) (h2 : p a = true) :
    (l1 ++ a :: l2).find? p = some a := by
  induction l1 with
  | nil => simpa using List.find?_cons_of_pos _ h2
  | cons b bs ih =>
    have hb : p b = false := h1 b (by simp)
    rw [List.cons_append, List.find?_cons_of_neg _ (by simp [hb])]
    exact ih (fun x hx => h1 x (by simp [hx]))

theorem find?_append_cons_none {α : Type} (p : α → Bool) (l1 l2 : List α) (a : α)
    (h1 : ∀ x ∈ l1, p x = false) (h2 : p a = false) (h3 : ∀ x ∈ l2, p x = false) :
    (l1 ++ a :: l2).find? p = none := by
  rw [List.find?_eq_none]
  intro x hx
  rcases List.mem_append.mp hx with hx | hx
  · simp [h1 x hx]
  · rcases List.mem_cons.mp hx with rfl | hx
    · simp [h2]
    · simp [h3 x hx]

namespace LocalTaskService

theorem updateTaskList_eq_some (l : List Task) (id : Nat) (dto : UpdateTaskDto)
    (now : Int) (l' : List Task) (u : Task)
    (h : updateTaskList l id dto now = some (l', u)) :
    ∃ l1 t l2, l = l1 ++ t :: l2 ∧ t.id = id ∧ (∀ x ∈ l1, x.id ≠ id) ∧
      u = applyTaskUpdate t dto now ∧ l' = l1 ++ u :: l2 := by
  induction l generalizing l' u with
  | nil => simp [updateTaskList] at h
  | cons t ts ih =>
    by_cases hid : t.id = id
    · rw [updateTaskList, if_pos hid] at h
      obtain ⟨h1, h2⟩ := Prod.mk.injEq .. ▸ Option.some.injEq .. ▸ h
      exact ⟨[], t, ts, by simp, hid, by simp, h2.symm, by simp [← h1, h2]⟩
    · rw [updateTaskList, if_neg hid] at h
      cases hrec : updateTaskList ts id dto now with
      | none => rw [hrec] at h; exact absurd h (by simp)
      | some p =>
        obtain ⟨ts', u'⟩ := p
        rw [hrec] at h
        have h' : some ((t :: ts' : List Task), u') = some (l', u) := h
        have h1 : l' = t :: ts' := (congrArg Prod.fst (Option.some.inj h')).symm
        have h2 : u = u' := (congrArg Prod.snd (Option.some.inj h')).symm
        subst h1
        subst h2
        obtain ⟨l1, t0, l2, e1, e2, e3, e4, e5⟩ := ih ts' u hrec
        refine ⟨t :: l1, t0, l2, by simp [e1], e2, ?_, e4, by simp [e5]⟩
        intro x hx
        rcases List.mem_cons.mp hx with rfl | hx
        · exact hid
        · exact e3 x hx

theorem updateTaskList_decomp (l1 l2 : List Task) (t : Task) (id : Nat)
    (dto : UpdateTaskDto) (now : Int)
    (h1 : ∀ x ∈ l1, x.id ≠ id) (h2 : t.id = id) :
    updateTaskList (l1 ++ t :: l2) id dto now =
      some (l1 ++ applyTaskUpdate t dto now :: l2, applyTaskUpdate t dto now) := by
  induction l1 with
  | nil => simp [updateTaskList, h2]
  | cons b bs ih =>
    have hb : b.id ≠ id := h1 b (by simp)
    rw [List.cons_append, updateTaskList, if_neg hb,
      ih (fun x hx => h1 x (by simp [hx]))]
    rfl

theorem updateTaskList_eq_none (l : List Task) (id : Nat) (dto : UpdateTaskDto)
    (now : Int) (h : ∀ t ∈ l, t.id ≠ id) :
    updateTaskList l id dto now = none := by
  induction l with
  | nil => rfl
  | cons t ts ih =>
    rw [updateTaskList, if_neg (h t (by simp)), ih (fun x hx => h x (by simp [hx]))]

theorem updateSessionList_eq_some (l : List TaskSession) (id : Nat)
    (dto : UpdateSessionDto) (l' : List TaskSession) (u : TaskSession)
    (h : updateSessionList l id dto = some (l', u)) :
    ∃ l1 s l2, l = l1 ++ s :: l2 ∧ s.id = id ∧ (∀ x ∈ l1, x.id ≠ id) ∧
      u = applySessionUpdate s dto ∧ l' = l1 ++ u :: l2 := by
  induction l generalizing l' u with
  | nil => simp [updateSessionList] at h
  | cons s ss ih =>
    by_cases hid : s.id = id
    · rw [updateSessionList, if_pos hid] at h
      obtain ⟨h1, h2⟩ := Prod.mk.injEq .. ▸ Option.some.injEq .. ▸ h
      exact ⟨[], s, ss, by simp, hid, by simp, h2.symm, by simp [← h1, h2]⟩
    · rw [updateSessionList, if_neg hid] at h
      cases hrec : updateSessionList ss id dto with
      | none => rw [hrec] at h; exact absurd h (by simp)
      | some p =>
        obtain ⟨ss', u'⟩ := p
        rw [hrec] at h
        have h' : some ((s :: ss' : List TaskSession), u') = some (l', u) := h
        have h1 : l' = s :: ss' := (congrArg Prod.fst (Option.some.inj h')).symm
        have h2 : u = u' := (congrArg Prod.snd (Option.some.inj h')).symm
        subst h1
        subst h2
        obtain ⟨l1, s0, l2, e1, e2, e3, e4, e5⟩ := ih ss' u hrec
        refine ⟨s :: l1, s0, l2, by simp [e1], e2, ?_, e4, by simp [e5]⟩
        intro x hx
        rcases List.mem_cons.mp hx with rfl | hx
        · exact hid
        · exact e3 x hx

theorem updateSessionList_decomp (l1 l2 : List TaskSession) (s : TaskSession)
    (id : Nat) (dto : UpdateSessionDto)
    (h1 : ∀ x ∈ l1, x.id ≠ id) (h2 : s.id = id) :
    updateSessionList (l1 ++ s :: l2) id dto =
      some (l1 ++ applySessionUpdate s dto :: l2, applySessionUpdate s dto) := by
  induction l1 with
  | nil => simp [updateSessionList, h2]
  | cons b bs ih =>
    have hb : b.id ≠ id := h1 b (by simp)
    rw [List.cons_append, updateSessionList, if_neg hb,
      ih (fun x hx => h1 x (by simp [hx]))]
    rfl

theorem getTaskById_set_sessions (st : Storage) (ss : List TaskSession) (id : Nat) :
    getTaskById { st with sessions := ss } id = getTaskById st id := rfl

theorem getTaskById_eq_none (st : Storage) (id : Nat)
    (h : ∀ t ∈ st.tasks, t.id ≠ id) : getTaskById st id = none := by
  rw [getTaskById, List.find?_eq_none]
  intro x hx
  simp [h x hx]

theorem getTaskById_none_forall (st : Storage) (id : Nat)
    (h : getTaskById st id = none) : ∀ t ∈ st.tasks, t.id ≠ id := by
  rw [getTaskById, List.find?_eq_none] at h
  intro t ht
  simpa using h t ht

theorem getTaskById_mem (st : Storage) (id : Nat) (t : Task)
    (h : getTaskById st id = some t) : t ∈ st.tasks ∧ t.id = id := by
  refine ⟨List.mem_of_find?_eq_some h, ?_⟩
  have := List.find?_some h
  simpa using this

theorem updateTask_not_found (st : Storage) (id : Nat) (dto : UpdateTaskDto)
    (now : Int) (h : ∀ t ∈ st.tasks, t.id ≠ id) :
    updateTask st id dto now = Except.error "Task not found" := by
  unfold updateTask
  rw [updateTaskList_eq_none _ _ _ _ h]

theorem updateTask_ok (st : Storage) (id : Nat) (dto : UpdateTaskDto) (now : Int)
    (st' : Storage) (u : Task)
    (h : updateTask st id dto now = Except.ok (st', u)) :
    ∃ l1 t l2, st.tasks = l1 ++ t :: l2 ∧ t.id = id ∧ (∀ x ∈ l1, x.id ≠ id) ∧
      u = applyTaskUpdate t dto now ∧
      st'.tasks = l1 ++ u :: l2 ∧ st'.sessions = st.sessions := by
  unfold updateTask at h
  cases hrec : updateTaskList st.tasks id dto now with
  | none => rw [hrec] at h; exact absurd h (by simp)
  | some p =>
    obtain ⟨tasks', u0⟩ := p
    rw [hrec] at h
    have h' : Except.ok (ε := String)
        (({ st with tasks := tasks' } : Storage), u0) = Except.ok (st', u) := h
    have hpair := Except.ok.inj h'
    have h1 : ({ st with tasks := tasks' } : Storage) = st' :=
      congrArg Prod.fst hpair
    have h2 : u0 = u := congrArg Prod.snd hpair
    subst h2
    obtain ⟨l1, t, l2, e1, e2, e3, e4, e5⟩ := updateTaskList_eq_some _ _ _ _ _ _ hrec
    exact ⟨l1, t, l2, e1, e2, e3, e4, by rw [← h1]; exact e5, by rw [← h1]⟩

theorem updateTask_find (st : Storage) (id : Nat) (dto : UpdateTaskDto)
    (now : Int) (t : Task) (h : getTaskById st id = some t) :
    ∃ l1 l2, st.tasks = l1 ++ t :: l2 ∧ (∀ x ∈ l1, x.id ≠ id) ∧ t.id = id ∧
      updateTask st id dto now =
        Except.ok ({ st with tasks := l1 ++ applyTaskUpdate t dto now :: l2 },
          applyTaskUpdate t dto now) := by
  obtain ⟨hp, l1, l2, he, hl1⟩ := find?_some_decomp _ _ _ h
  have ht : t.id = id := by simpa using hp
  have hl1' : ∀ x ∈ l1, x.id ≠ id := fun x hx => by simpa using hl1 x hx
  refine ⟨l1, l2, he, hl1', ht, ?_⟩
  unfold updateTask
  rw [he, updateTaskList_decomp _ _ _ _ _ _ hl1' ht]

theorem updateSession_no_credit (st : Storage) (id : Nat) (dto : UpdateSessionDto)
    (now : Int) (l1 l2 : List TaskSession) (s : TaskSession)
    (he : st.sessions = l1 ++ s :: l2) (hl1 : ∀ x ∈ l1, x.id ≠ id) (hs : s.id = id)
    (hnc : dto.durationMinutes = none ∨ dto.durationMinutes = some 0 ∨
      (∃ d, dto.durationMinutes = some d ∧
        getTaskById st (applySessionUpdate s dto).taskId = none)) :
    updateSession st id dto now =
      Except.ok ({ st with sessions := l1 ++ applySessionUpdate s dto :: l2 },
        applySessionUpdate s dto) := by
  unfold updateSession
  rw [he, updateSessionList_decomp _ _ _ _ _ hl1 hs]
  rcases hnc with hd | hd | ⟨d, hd, ho⟩
  · simp only [hd]
  · simp only [hd, if_pos rfl, if_true]
  · by_cases hdz : d = 0
    · subst hdz
      simp only [hd, if_pos rfl, if_true]
    · simp only [hd, if_neg hdz, getTaskById_set_sessions, ho]

theorem updateSession_credit (st : Storage) (id : Nat) (dto : UpdateSessionDto)
    (now : Int) (l1 l2 : List TaskSession) (s : TaskSession) (d : Int) (task : Task)
    (he : st.sessions = l1 ++ s :: l2) (hl1 : ∀ x ∈ l1, x.id ≠ id) (hs : s.id = id)
    (hd : dto.durationMinutes = some d) (hdz : d ≠ 0)
    (ht : getTaskById st (applySessionUpdate s dto).taskId = some task) :
    updateSession st id dto now =
      (updateTask { st with sessions := l1 ++ applySessionUpdate s dto :: l2 }
        task.id { actualMinutes := some (task.actualMinutes + d) } now).map
        (fun p => (p.1, applySessionUpdate s dto)) := by
  unfold updateSession
  rw [he, updateSessionList_decomp _ _ _ _ _ hl1 hs]
  simp only [hd, if_neg hdz, getTaskById_set_sessions, ht]
  cases updateTask { st with sessions := l1 ++ applySessionUpdate s dto :: l2 }
      task.id { actualMinutes := some (task.actualMinutes + d) } now <;> rfl

theorem applySessionUpdate_id (s : TaskSession) (dto : UpdateSessionDto) :
    (applySessionUpdate s dto).id = s.id := rfl

theorem applySessionUpdate_taskId (s : TaskSession) (dto : UpdateSessionDto) :
    (applySessionUpdate s dto).taskId = s.taskId := rfl

theorem applyTaskUpdate_id (t : Task) (dto : UpdateTaskDto) (now : Int) :
    (applyTaskUpdate t dto now).id = t.id := rfl

theorem applyTaskUpdate_actualMinutes_none (t : Task) (dto : UpdateTaskDto)
    (now : Int) (h : dto.actualMinutes = none) :
    (applyTaskUpdate t dto now).actualMinutes = t.actualMinutes := by
  simp [applyTaskUpdate, h]

end LocalTaskService

theorem nodup_middle_eq {α : Type} (f : α → Nat) (l1 l2 : List α) (a x : α)
    (hnd : ((l1 ++ a :: l2).map f).Nodup) (hx : x ∈ l1 ++ a :: l2)
    (hid : f x = f a) : x = a := by
  rw [List.map_append, List.nodup_append] at hnd
  rcases List.mem_append.mp hx with hx | hx
  · exact absurd (by simp : f a ∈ (a :: l2).map f)
      (hnd.2.2 (hid ▸ List.mem_map_of_mem f hx))
  · rcases List.mem_cons.mp hx with rfl | hx
    · rfl
    · have h1 : f a ∉ l2.map f := by
        have := hnd.2.1
        rw [List.map_cons, List.nodup_cons] at this
        exact this.1
      exact absurd (hid ▸ List.mem_map_of_mem f hx) h1

theorem nodup_suffix_ne {α : Type} (f : α → Nat) (l1 l2 : List α) (a : α)
    (hnd : ((l1 ++ a :: l2).map f).Nodup) : ∀ x ∈ l2, f x ≠ f a := by
  intro x hx he
  rw [List.map_append, List.nodup_append, List.map_cons, List.nodup_cons] at hnd
  exact hnd.2.1.1 (he ▸ List.mem_map_of_mem f hx)

theorem nodup_prefix_ne {α : Type} (f : α → Nat) (l1 l2 : List α) (a : α)
    (hnd : ((l1 ++ a :: l2).map f).Nodup) : ∀ x ∈ l1, f x ≠ f a := by
  intro x hx he
  rw [List.map_append, List.nodup_append] at hnd
  exact hnd.2.2 (he ▸ List.mem_map_of_mem f hx) (by simp)

namespace Engine

theorem closedSum_append (l1 l2 : List TaskSession) (tid : Nat) :
    closedSum (l1 ++ l2) tid = closedSum l1 tid + closedSum l2 tid := by
  simp [closedSum, List.filter_append]

theorem closedSum_cons (s : TaskSession) (l : List TaskSession) (tid : Nat) :
    closedSum (s :: l) tid =
      (if (s.taskId == tid && s.endedAt.isSome) = true then s.durationMinutes
       else 0) + closedSum l tid := by
  by_cases h : (s.taskId == tid && s.endedAt.isSome) = true
  · simp [closedSum, List.filter_cons, h]
  · simp [closedSum, List.filter_cons, h]

theorem closedSum_cons_open (s : TaskSession) (l : List TaskSession) (tid : Nat)
    (h : s.endedAt = none) : closedSum (s :: l) tid = closedSum l tid := by
  rw [closedSum_cons, if_neg (by simp [h])]
  ring

theorem closedSum_eq_zero (ss : List TaskSession) (tid : Nat)
    (h : ∀ s ∈ ss, s.endedAt ≠ none → s.taskId ≠ tid) : closedSum ss tid = 0 := by
  induction ss with
  | nil => rfl
  | cons s ts ih =>
    rw [closedSum_cons, if_neg ?_, ih (fun x hx => h x (by simp [hx])), add_zero]
    intro hc
    rw [Bool.and_eq_true, beq_iff_eq] at hc
    exact h s (by simp) (by cases he : s.endedAt <;> simp [he] at hc ⊢) hc.1

theorem openCount_append (l1 l2 : List TaskSession) :
    openSessionCount (l1 ++ l2) = openSessionCount l1 + openSessionCount l2 := by
  simp [openSessionCount, List.filter_append]

theorem openCount_cons (s : TaskSession) (l : List TaskSession) :
    openSessionCount (s :: l) =
      (if s.endedAt.isNone = true then 1 else 0) + openSessionCount l := by
  by_cases h : s.endedAt.isNone = true
  · simp [openSessionCount, List.filter_cons, h, Nat.add_comm]
  · simp [openSessionCount, List.filter_cons, h]

/-- The inductive invariant of the engine used to settle the claims about
reachable states: stored ids are below the id counters and pairwise
distinct, every closed session (and the current session, which is stored
and still open) points below the task-id counter, and every stored task's
`actualMinutes` is the sum of `durationMinutes` over its closed sessions. -/
structure Inv (e : EngineState) : Prop where
  tasks_bound : ∀ t ∈ e.storage.tasks, t.id < e.nextTaskId
  tasks_nodup : (e.storage.tasks.map Task.id).Nodup
  sessions_bound : ∀ s ∈ e.storage.sessions, s.id < e.nextSessionId
  sessions_nodup : (e.storage.sessions.map TaskSession.id).Nodup
  closed_bound : ∀ s ∈ e.storage.sessions, s.endedAt ≠ none → s.taskId < e.nextTaskId
  cur_open : ∀ cs, e.currentSession = some cs →
    ∃ s ∈ e.storage.sessions, s.id = cs.id ∧ s.endedAt = none ∧
      s.taskId < e.nextTaskId
  minutes : ∀ t ∈ e.storage.tasks,
    t.actualMinutes = closedSum e.storage.sessions t.id

theorem inv_init : Inv initEngine := by
  constructor <;> simp [initEngine]

theorem inv_of_frame (e e' : EngineState) (h1 : e'.storage = e.storage)
    (h2 : e'.currentSession = e.currentSession) (h3 : e'.nextTaskId = e.nextTaskId)
    (h4 : e'.nextSessionId = e.nextSessionId) (hi : Inv e) : Inv e' := by
  refine ⟨?_, ?_, ?_, ?_, ?_, ?_, ?_⟩
  · rw [h1, h3]; exact hi.tasks_bound
  · rw [h1]; exact hi.tasks_nodup
  · rw [h1, h4]; exact hi.sessions_bound
  · rw [h1]; exact hi.sessions_nodup
  · rw [h1, h3]; exact hi.closed_bound
  · rw [h1, h2, h3]; exact hi.cur_open
  · rw [h1]; exact hi.minutes

theorem tick_frame (e : EngineState) :
    (tick e).storage = e.storage ∧ (tick e).currentSession = e.currentSession ∧
      (tick e).nextTaskId = e.nextTaskId ∧ (tick e).nextSessionId = e.nextSessionId ∧
      (tick e).settings = e.settings ∧ (tick e).activeTaskId = e.activeTaskId := by
  unfold tick
  split <;> exact ⟨rfl, rfl, rfl, rfl, rfl, rfl⟩

/-- Replacing one stored task by a record with the same id and the same
`actualMinutes`, leaving the sessions alone, preserves the invariant. -/
theorem inv_replace_task (e : EngineState) (st' : Storage)
    (l1 l2 : List Task) (t u : Task)
    (e1 : e.storage.tasks = l1 ++ t :: l2)
    (e5 : st'.tasks = l1 ++ u :: l2) (e6 : st'.sessions = e.storage.sessions)
    (hid : u.id = t.id) (hact : u.actualMinutes = t.actualMinutes)
    (hi : Inv e) : Inv ({ e with storage := st' } : EngineState) := by
  have hmem : ∀ x ∈ st'.tasks, x ∈ e.storage.tasks ∨ x = u := by
    intro x hx
    rw [e5] at hx
    rcases List.mem_append.mp hx with hx | hx
    · exact Or.inl (e1 ▸ List.mem_append_left _ hx)
    · rcases List.mem_cons.mp hx with rfl | hx
      · exact Or.inr rfl
      · exact Or.inl (e1 ▸ List.mem_append_right _ (List.mem_cons_of_mem _ hx))
  have htmem : t ∈ e.storage.tasks := e1 ▸ List.mem_append_right _ (List.mem_cons_self _ _)
  refine ⟨?_, ?_, ?_, ?_, ?_, ?_, ?_⟩
  · intro x hx
    rcases hmem x hx with hx | rfl
    · exact hi.tasks_bound x hx
    · exact hid ▸ hi.tasks_bound t htmem
  · show (st'.tasks.map Task.id).Nodup
    have : st'.tasks.map Task.id = e.storage.tasks.map Task.id := by
      rw [e5, e1]
      simp [hid]
    rw [this]
    exact hi.tasks_nodup
  · show ∀ s ∈ st'.sessions, _
    rw [e6]
    exact hi.sessions_bound
  · show (st'.sessions.map TaskSession.id).Nodup
    rw [e6]
    exact hi.sessions_nodup
  · show ∀ s ∈ st'.sessions, _
    rw [e6]
    exact hi.closed_bound
  · intro cs hcs
    obtain ⟨s, hs, h1, h2, h3⟩ := hi.cur_open cs hcs
    exact ⟨s, e6 ▸ hs, h1, h2, h3⟩
  · intro x hx
    rw [show ({ e with storage := st' } : EngineState).storage = st' from rfl, e6]
    rcases hmem x hx with hxe | rfl
    · exact hi.minutes x hxe
    · rw [hact, hid]
      exact hi.minutes t htmem

theorem inv_createTask (e : EngineState) (dto : CreateTaskDto) (now : Int)
    (hi : Inv e) : Inv (createTask e dto now) := by
  refine ⟨?_, ?_, ?_, ?_, ?_, ?_, ?_⟩
  · intro t ht
    rcases List.mem_append.mp ht with ht | ht
    · exact Nat.lt_succ_of_lt (hi.tasks_bound t ht)
    · rw [List.mem_singleton.mp ht]
      exact Nat.lt_succ_self _
  · show ((e.storage.tasks ++ [LocalTaskService.newTaskRecord dto e.nextTaskId now]).map
      Task.id).Nodup
    rw [List.map_append, List.nodup_append]
    refine ⟨hi.tasks_nodup, List.nodup_singleton _, ?_⟩
    intro a ha hb
    obtain ⟨t, ht, rfl⟩ := List.mem_map.mp ha
    have he : t.id = e.nextTaskId := by
      simpa [LocalTaskService.newTaskRecord] using hb
    exact absurd he (Nat.ne_of_lt (hi.tasks_bound t ht))
  · exact hi.sessions_bound
  · exact hi.sessions_nodup
  · intro s hs hc
    exact Nat.lt_succ_of_lt (hi.closed_bound s hs hc)
  · intro cs hcs
    obtain ⟨s, hs, h1, h2, h3⟩ := hi.cur_open cs hcs
    exact ⟨s, hs, h1, h2, Nat.lt_succ_of_lt h3⟩
  · intro t ht
    rcases List.mem_append.mp ht with ht | ht
    · exact hi.minutes t ht
    · rw [List.mem_singleton.mp ht]
      exact (closedSum_eq_zero _ _
        (fun s hs hc => Nat.ne_of_lt (hi.closed_bound s hs hc))).symm

theorem inv_updateTask (e : EngineState) (id : Nat) (dto : UpdateTaskDto)
    (now : Int) (hact : dto.actualMinutes = none) (hi : Inv e) :
    Inv (updateTask e id dto now) := by
  unfold updateTask
  cases hcall : LocalTaskService.updateTask e.storage id dto now with
  | error err => exact hi
  | ok p =>
    obtain ⟨st', u⟩ := p
    obtain ⟨l1, t, l2, e1, e2, e3, e4, e5, e6⟩ :=
      LocalTaskService.updateTask_ok _ _ _ _ _ _ hcall
    exact inv_replace_task e st' l1 l2 t u e1 e5 e6 (by rw [e4]; rfl)
      (by rw [e4]; exact LocalTaskService.applyTaskUpdate_actualMinutes_none _ _ _ hact)
      hi

theorem inv_completeTask (e : EngineState) (id : Nat) (now : Int) (hi : Inv e) :
    Inv (completeTask e id now) :=
  inv_updateTask e id _ now rfl hi

theorem inv_deleteTask (e : EngineState) (id : Nat) (hi : Inv e) :
    Inv (deleteTask e id) := by
  have hsub : ∀ x ∈ e.storage.tasks.filter (fun t => t.id ≠ id),
      x ∈ e.storage.tasks := fun x hx => (List.mem_filter.mp hx).1
  refine ⟨?_, ?_, ?_, ?_, ?_, ?_, ?_⟩
  · exact fun t ht => hi.tasks_bound t (hsub t ht)
  · exact hi.tasks_nodup.sublist ((e.storage.tasks.filter_sublist).map Task.id)
  · exact hi.sessions_bound
  · exact hi.sessions_nodup
  · exact hi.closed_bound
  · exact hi.cur_open
  · exact fun t ht => hi.minutes t (hsub t ht)

theorem inv_createSession (e : EngineState) (dto : CreateSessionDto) (now : Int)
    (hi : Inv e) : Inv (createSession e dto now) := by
  refine ⟨?_, ?_, ?_, ?_, ?_, ?_, ?_⟩
  · exact hi.tasks_bound
  · exact hi.tasks_nodup
  · intro s hs
    rcases List.mem_append.mp hs with hs | hs
    · exact Nat.lt_succ_of_lt (hi.sessions_bound s hs)
    · rw [List.mem_singleton.mp hs]
      exact Nat.lt_succ_self _
  · show ((e.storage.sessions ++
      [LocalTaskService.newSessionRecord dto e.nextSessionId now]).map
        TaskSession.id).Nodup
    rw [List.map_append, List.nodup_append]
    refine ⟨hi.sessions_nodup, List.nodup_singleton _, ?_⟩
    intro a ha hb
    obtain ⟨s, hs, rfl⟩ := List.mem_map.mp ha
    have he : s.id = e.nextSessionId := by
      simpa [LocalTaskService.newSessionRecord] using hb
    exact absurd he (Nat.ne_of_lt (hi.sessions_bound s hs))
  · intro s hs hc
    rcases List.mem_append.mp hs with hs | hs
    · exact hi.closed_bound s hs hc
    · rw [List.mem_singleton.mp hs] at hc
      exact absurd rfl hc
  · intro cs hcs
    obtain ⟨s, hs, h1, h2, h3⟩ := hi.cur_open cs hcs
    exact ⟨s, List.mem_append_left _ hs, h1, h2, h3⟩
  · intro t ht
    rw [show (createSession e dto now).storage.sessions =
      e.storage.sessions ++ [LocalTaskService.newSessionRecord dto e.nextSessionId now]
      from rfl]
    rw [closedSum_append, closedSum_cons_open _ _ _ rfl]
    show t.actualMinutes = closedSum e.storage.sessions t.id + closedSum [] t.id
    rw [show closedSum [] t.id = 0 from rfl, add_zero]
    exact hi.minutes t ht

theorem contrib_open (s : TaskSession) (tid : Nat) (h : s.endedAt = none) :
    (if (s.taskId == tid && s.endedAt.isSome) = true then s.durationMinutes
     else 0) = 0 := by
  rw [if_neg]
  simp [h]

theorem contrib_ne (s : TaskSession) (tid : Nat) (h : s.taskId ≠ tid) :
    (if (s.taskId == tid && s.endedAt.isSome) = true then s.durationMinutes
     else 0) = 0 := by
  rw [if_neg]
  simp [h]

theorem contrib_closed (s : TaskSession) (tid : Nat) (h1 : s.taskId = tid)
    (h2 : s.endedAt.isSome = true) :
    (if (s.taskId == tid && s.endedAt.isSome) = true then s.durationMinutes
     else 0) = s.durationMinutes := by
  rw [if_pos]
  simp [h1, h2]

theorem closedSum_middle (A B : List TaskSession) (s : TaskSession) (tid : Nat) :
    closedSum (A ++ s :: B) tid =
      closedSum A tid +
        (if (s.taskId == tid && s.endedAt.isSome) = true then s.durationMinutes
         else 0) + closedSum B tid := by
  rw [closedSum_append, closedSum_cons]
  ring

theorem inv_startTask (e : EngineState) (taskId : Nat) (now : Int) (hi : Inv e) :
    Inv (startTask e taskId now) := by
  unfold startTask
  cases hcall : LocalTaskService.updateTask e.storage taskId
      { status := some TaskStatus.in_progress } now with
  | error err => exact hi
  | ok p =>
    obtain ⟨st1, u⟩ := p
    obtain ⟨l1, t, l2, e1, e2, e3, e4, e5, e6⟩ :=
      LocalTaskService.updateTask_ok _ _ _ _ _ _ hcall
    have hmid : Inv ({ e with storage := st1 } : EngineState) :=
      inv_replace_task e st1 l1 l2 t u e1 e5 e6 (by rw [e4]; rfl)
        (by rw [e4]
            exact LocalTaskService.applyTaskUpdate_actualMinutes_none _ _ _ rfl) hi
    have htm : t ∈ e.storage.tasks :=
      e1 ▸ List.mem_append_right _ (List.mem_cons_self _ _)
    have htid : taskId < e.nextTaskId := by
      rw [← e2]
      exact hi.tasks_bound t htm
    refine ⟨?_, ?_, ?_, ?_, ?_, ?_, ?_⟩
    · exact hmid.tasks_bound
    · exact hmid.tasks_nodup
    · intro s hs
      rcases List.mem_append.mp hs with hs | hs
      · exact Nat.lt_succ_of_lt (hmid.sessions_bound s hs)
      · rw [List.mem_singleton.mp hs]
        exact Nat.lt_succ_self _
    · show ((st1.sessions ++
        [LocalTaskService.newSessionRecord { taskId := taskId } e.nextSessionId now]).map
          TaskSession.id).Nodup
      rw [List.map_append, List.nodup_append]
      refine ⟨hmid.sessions_nodup, List.nodup_singleton _, ?_⟩
      intro a ha hb
      obtain ⟨s, hs, rfl⟩ := List.mem_map.mp ha
      have he : s.id = e.nextSessionId := by
        simpa [LocalTaskService.newSessionRecord] using hb
      exact absurd he (Nat.ne_of_lt (hmid.sessions_bound s hs))
    · intro s hs hc
      rcases List.mem_append.mp hs with hs | hs
      · exact hmid.closed_bound s hs hc
      · rw [List.mem_singleton.mp hs] at hc
        exact absurd rfl hc
    · intro cs hcs
      have hcs' : LocalTaskService.newSessionRecord { taskId := taskId }
          e.nextSessionId now = cs := Option.some.inj hcs
      refine ⟨LocalTaskService.newSessionRecord { taskId := taskId } e.nextSessionId now,
        List.mem_append_right _ (List.mem_singleton.mpr rfl), ?_, rfl, htid⟩
      rw [hcs']
    · intro x hx
      show x.actualMinutes = closedSum (st1.sessions ++
        [LocalTaskService.newSessionRecord { taskId := taskId } e.nextSessionId now]) x.id
      rw [closedSum_append, closedSum_cons_open _ _ _ rfl,
        show closedSum [] x.id = 0 from rfl, add_zero]
      exact hmid.minutes x hx

theorem stopTask_none (e : EngineState) (now : Int) (ach pend : Option String)
    (h : e.currentSession = none) : stopTask e now ach pend = e := by
  unfold stopTask
  rw [h]

theorem stopTask_some (e : EngineState) (now : Int) (ach pend : Option String)
    (cs : TaskSession) (h : e.currentSession = some cs) :
    stopTask e now ach pend =
      match LocalTaskService.updateSession e.storage cs.id
          (stopDto e now ach pend cs) now with
      | Except.error _ => e
      | Except.ok p =>
        { e with
          storage := p.1
          currentSession := none
          timer :=
            { e.timer with
              isRunning := false
              isPaused := false
              timeRemaining := e.settings.workDuration * 60 } } := by
  unfold stopTask
  rw [h]

theorem inv_stopTask (e : EngineState) (now : Int) (ach pend : Option String)
    (hi : Inv e) : Inv (stopTask e now ach pend) := by
  cases hcs : e.currentSession with
  | none =>
    rw [stopTask_none e now ach pend hcs]
    exact hi
  | some cs =>
    rw [stopTask_some e now ach pend cs hcs]
    obtain ⟨s0, hmem, hs0id, hs0open, hs0tid⟩ := hi.cur_open cs hcs
    obtain ⟨A, B, hAB⟩ := List.append_of_mem hmem
    have hnodAB : ((A ++ s0 :: B).map TaskSession.id).Nodup := by
      rw [← hAB]
      exact hi.sessions_nodup
    have hA : ∀ x ∈ A, x.id ≠ cs.id := by
      intro x hx
      rw [← hs0id]
      exact nodup_prefix_ne TaskSession.id A B s0 hnodAB x hx
    have hmid : (LocalTaskService.applySessionUpdate s0
      (stopDto e now ach pend cs)).id = s0.id := rfl
    have hmtid : (LocalTaskService.applySessionUpdate s0
      (stopDto e now ach pend cs)).taskId = s0.taskId := rfl
    have hmended : (LocalTaskService.applySessionUpdate s0
      (stopDto e now ach pend cs)).endedAt = some now := rfl
    have hmdur : (LocalTaskService.applySessionUpdate s0
      (stopDto e now ach pend cs)).durationMinutes =
        Int.fdiv (now - cs.startedAt) 60000 := rfl
    have hsess_bound : ∀ s ∈ A ++ LocalTaskService.applySessionUpdate s0
        (stopDto e now ach pend cs) :: B, s.id < e.nextSessionId := by
      intro s hs
      rcases List.mem_append.mp hs with hs | hs
      · exact hi.sessions_bound s (hAB ▸ List.mem_append_left _ hs)
      · rcases List.mem_cons.mp hs with rfl | hs
        · rw [hmid]
          exact hi.sessions_bound s0 hmem
        · exact hi.sessions_bound s
            (hAB ▸ List.mem_append_right _ (List.mem_cons_of_mem _ hs))
    have hsess_nodup : ((A ++ LocalTaskService.applySessionUpdate s0
        (stopDto e now ach pend cs) :: B).map TaskSession.id).Nodup := by
      have heq : (A ++ LocalTaskService.applySessionUpdate s0
          (stopDto e now ach pend cs) :: B).map TaskSession.id =
          (A ++ s0 :: B).map TaskSession.id := by
        simp [hmid]
      rw [heq]
      exact hnodAB
    have hsess_closed : ∀ s ∈ A ++ LocalTaskService.applySessionUpdate s0
        (stopDto e now ach pend cs) :: B, s.endedAt ≠ none →
          s.taskId < e.nextTaskId := by
      intro s hs hc
      rcases List.mem_append.mp hs with hs | hs
      · exact hi.closed_bound s (hAB ▸ List.mem_append_left _ hs) hc
      · rcases List.mem_cons.mp hs with rfl | hs
        · rw [hmtid]
          exact hs0tid
        · exact hi.closed_bound s
            (hAB ▸ List.mem_append_right _ (List.mem_cons_of_mem _ hs)) hc
    cases hcall : LocalTaskService.updateSession e.storage cs.id
        (stopDto e now ach pend cs) now with
    | error err => exact hi
    | ok p =>
      by_cases hdz : Int.fdiv (now - cs.startedAt) 60000 = 0
      · rw [LocalTaskService.updateSession_no_credit e.storage cs.id _ now A B s0
          hAB hA hs0id (Or.inr (Or.inl (by simp [stopDto, hdz])))] at hcall
        have hp := Except.ok.inj hcall
        subst hp
        refine ⟨hi.tasks_bound, hi.tasks_nodup, hsess_bound, hsess_nodup,
          hsess_closed, ?_, ?_⟩
        · intro cs' hcs'
          exact absurd hcs' (by simp)
        · intro x hx
          show x.actualMinutes = closedSum (A ++ LocalTaskService.applySessionUpdate
            s0 (stopDto e now ach pend cs) :: B) x.id
          have hold : x.actualMinutes = closedSum A x.id + 0 + closedSum B x.id := by
            have h0 : x.actualMinutes = closedSum (A ++ s0 :: B) x.id := by
              rw [← hAB]
              exact hi.minutes x hx
            rwa [closedSum_middle, contrib_open s0 x.id hs0open] at h0
          rw [closedSum_middle]
          by_cases hxt : (LocalTaskService.applySessionUpdate s0
              (stopDto e now ach pend cs)).taskId = x.id
          · rw [contrib_closed _ _ hxt (by rw [hmended]; rfl), hmdur, hdz]
            exact hold
          · rw [contrib_ne _ _ hxt]
            exact hold
      · cases hfind : LocalTaskService.getTaskById e.storage
            (LocalTaskService.applySessionUpdate s0
              (stopDto e now ach pend cs)).taskId with
        | none =>
          rw [LocalTaskService.updateSession_no_credit e.storage cs.id _ now A B s0
            hAB hA hs0id (Or.inr (Or.inr ⟨_, rfl, hfind⟩))] at hcall
          have hp := Except.ok.inj hcall
          subst hp
          have hne := LocalTaskService.getTaskById_none_forall _ _ hfind
          refine ⟨hi.tasks_bound, hi.tasks_nodup, hsess_bound, hsess_nodup,
            hsess_closed, ?_, ?_⟩
          · intro cs' hcs'
            exact absurd hcs' (by simp)
          · intro x hx
            show x.actualMinutes = closedSum (A ++ LocalTaskService.applySessionUpdate
              s0 (stopDto e now ach pend cs) :: B) x.id
            have hold : x.actualMinutes = closedSum A x.id + 0 + closedSum B x.id := by
              have h0 : x.actualMinutes = closedSum (A ++ s0 :: B) x.id := by
                rw [← hAB]
                exact hi.minutes x hx
              rwa [closedSum_middle, contrib_open s0 x.id hs0open] at h0
            rw [closedSum_middle, contrib_ne _ _ (fun he => hne x hx he.symm)]
            exact hold
        | some task =>
          obtain ⟨htaskmem, htaskid⟩ := LocalTaskService.getTaskById_mem _ _ _ hfind
          rw [LocalTaskService.updateSession_credit e.storage cs.id _ now A B s0
            (Int.fdiv (now - cs.startedAt) 60000) task hAB hA hs0id rfl hdz
            hfind] at hcall
          have hfind2 : LocalTaskService.getTaskById
              { e.storage with sessions := (A ++
                (LocalTaskService.applySessionUpdate s0
                  (stopDto e now ach pend cs)) :: B) } task.id = some task := by
            rw [LocalTaskService.getTaskById_set_sessions, htaskid]
            exact hfind
          obtain ⟨m1, m2, hm, hm1, _, hok⟩ :=
            LocalTaskService.updateTask_find _ task.id
              { actualMinutes := some (task.actualMinutes +
                  Int.fdiv (now - cs.startedAt) 60000) } now task hfind2
          rw [hok] at hcall
          have hcall' : Except.ok (ε := String)
              (({ tasks := (m1 ++
                    (LocalTaskService.applyTaskUpdate task
                      { actualMinutes := some (task.actualMinutes +
                          Int.fdiv (now - cs.startedAt) 60000) } now) :: m2)
                  sessions := (A ++
                    (LocalTaskService.applySessionUpdate s0
                      (stopDto e now ach pend cs)) :: B) } : Storage),
                LocalTaskService.applySessionUpdate s0 (stopDto e now ach pend cs)) =
              Except.ok p := hcall
          have hp := Except.ok.inj hcall'
          subst hp
          have hmtasks : e.storage.tasks = m1 ++ task :: m2 := hm
          have hm2 : ∀ x ∈ m2, x.id ≠ task.id :=
            nodup_suffix_ne Task.id m1 m2 task (hmtasks ▸ hi.tasks_nodup)
          have hu2id : (LocalTaskService.applyTaskUpdate task
            { actualMinutes := some (task.actualMinutes +
                Int.fdiv (now - cs.startedAt) 60000) } now).id = task.id := rfl
          have hu2act : (LocalTaskService.applyTaskUpdate task
            { actualMinutes := some (task.actualMinutes +
                Int.fdiv (now - cs.startedAt) 60000) } now).actualMinutes =
              task.actualMinutes + Int.fdiv (now - cs.startedAt) 60000 := rfl
          have huntouched : ∀ x ∈ e.storage.tasks, x.id ≠ task.id →
              x.actualMinutes = closedSum (A ++ LocalTaskService.applySessionUpdate
                s0 (stopDto e now ach pend cs) :: B) x.id := by
            intro x hxe hxid
            have hold : x.actualMinutes = closedSum A x.id + 0 + closedSum B x.id := by
              have h0 : x.actualMinutes = closedSum (A ++ s0 :: B) x.id := by
                rw [← hAB]
                exact hi.minutes x hxe
              rwa [closedSum_middle, contrib_open s0 x.id hs0open] at h0
            rw [closedSum_middle, contrib_ne _ _ (fun he => hxid (htaskid.trans he).symm)]
            exact hold
          refine ⟨?_, ?_, hsess_bound, hsess_nodup, hsess_closed, ?_, ?_⟩
          · intro x hx
            rcases List.mem_append.mp hx with hx1 | hx1
            · exact hi.tasks_bound x (hmtasks ▸ List.mem_append_left _ hx1)
            · rcases List.mem_cons.mp hx1 with rfl | hx1
              · rw [hu2id]
                exact hi.tasks_bound task htaskmem
              · exact hi.tasks_bound x
                  (hmtasks ▸ List.mem_append_right _ (List.mem_cons_of_mem _ hx1))
          · show ((m1 ++ LocalTaskService.applyTaskUpdate task
              { actualMinutes := some (task.actualMinutes +
                  Int.fdiv (now - cs.startedAt) 60000) } now :: m2).map Task.id).Nodup
            have heq : (m1 ++ LocalTaskService.applyTaskUpdate task
                { actualMinutes := some (task.actualMinutes +
                    Int.fdiv (now - cs.startedAt) 60000) } now :: m2).map Task.id =
                (m1 ++ task :: m2).map Task.id := by
              simp [hu2id]
            rw [heq, ← hmtasks]
            exact hi.tasks_nodup
          · intro cs' hcs'
            exact absurd hcs' (by simp)
          · intro x hx
            show x.actualMinutes = closedSum (A ++ LocalTaskService.applySessionUpdate
              s0 (stopDto e now ach pend cs) :: B) x.id
            rcases List.mem_append.mp hx with hx1 | hx1
            · exact huntouched x (hmtasks ▸ List.mem_append_left _ hx1) (hm1 x hx1)
            · rcases List.mem_cons.mp hx1 with rfl | hx1
              · rw [hu2act, hu2id, closedSum_middle,
                  contrib_closed _ _ htaskid.symm (by rw [hmended]; rfl), hmdur]
                have hold : task.actualMinutes =
                    closedSum A task.id + 0 + closedSum B task.id := by
                  have h0 : task.actualMinutes = closedSum (A ++ s0 :: B) task.id := by
                    rw [← hAB]
                    exact hi.minutes task htaskmem
                  rwa [closedSum_middle, contrib_open s0 task.id hs0open] at h0
                rw [hold]
                ring
              · exact huntouched x
                  (hmtasks ▸ List.mem_append_right _ (List.mem_cons_of_mem _ hx1))
                  (hm2 x hx1)

theorem inv_togglePause (e : EngineState) (hi : Inv e) : Inv (togglePause e) :=
  inv_of_frame e (togglePause e) rfl rfl rfl rfl hi

theorem inv_updateSettings (e : EngineState) (s : PomodoroSettings) (hi : Inv e) :
    Inv (updateSettings e s) :=
  inv_of_frame e (updateSettings e s) rfl rfl rfl rfl hi

theorem inv_tick (e : EngineState) (hi : Inv e) : Inv (tick e) := by
  obtain ⟨h1, h2, h3, h4, _, _⟩ := tick_frame e
  exact inv_of_frame e (tick e) h1 h2 h3 h4 hi

theorem step_inv {a b : EngineState} (hs : Step a b) (hi : Inv a) : Inv b := by
  cases hs with
  | createTask dto now => exact inv_createTask _ dto now hi
  | updateTask id dto now h => exact inv_updateTask _ id dto now h hi
  | deleteTask id => exact inv_deleteTask _ id hi
  | createSession dto now => exact inv_createSession _ dto now hi
  | startTask taskId now => exact inv_startTask _ taskId now hi
  | togglePause => exact inv_togglePause _ hi
  | stopTask now ach pend => exact inv_stopTask _ now ach pend hi
  | completeTask taskId now => exact inv_completeTask _ taskId now hi
  | tick => exact inv_tick _ hi
  | updateSettings s => exact inv_updateSettings _ s hi

theorem reachable_inv {e : EngineState} (h : Reachable e) : Inv e := by
  induction h with
  | refl => exact inv_init
  | tail _ hstep ih => exact step_inv hstep ih

/-- What any successful `updateSession` does to the stored sessions:
the first id-match is replaced in place by the merged record. -/
theorem updateSession_ok_shape (st : Storage) (id : Nat) (dto : UpdateSessionDto)
    (now : Int) (st' : Storage) (u : TaskSession)
    (h : LocalTaskService.updateSession st id dto now = Except.ok (st', u)) :
    ∃ l1 s l2, st.sessions = l1 ++ s :: l2 ∧ s.id = id ∧ (∀ x ∈ l1, x.id ≠ id) ∧
      u = LocalTaskService.applySessionUpdate s dto ∧
      st'.sessions = l1 ++ u :: l2 := by
  unfold LocalTaskService.updateSession at h
  cases hrec : LocalTaskService.updateSessionList st.sessions id dto with
  | none => rw [hrec] at h; exact absurd h (by simp)
  | some p =>
    obtain ⟨ss', u0⟩ := p
    rw [hrec] at h
    obtain ⟨l1, s, l2, e1, e2, e3, e4, e5⟩ :=
      LocalTaskService.updateSessionList_eq_some _ _ _ _ _ hrec
    have hshape : st'.sessions = ss' ∧ u = u0 := by
      cases hd : dto.durationMinutes with
      | none =>
        simp only [hd] at h
        have hpair := Except.ok.inj h
        rw [Prod.mk.injEq] at hpair
        exact ⟨by rw [← hpair.1], hpair.2.symm⟩
      | some d =>
        by_cases hdz : d = 0
        · subst hdz
          simp only [hd, if_pos rfl, if_true] at h
          have hpair := Except.ok.inj h
          rw [Prod.mk.injEq] at hpair
          exact ⟨by rw [← hpair.1], hpair.2.symm⟩
        · simp only [hd, if_neg hdz] at h
          cases hg : LocalTaskService.getTaskById
              { st with sessions := ss' } u0.taskId with
          | none =>
            simp only [hg] at h
            have hpair := Except.ok.inj h
            rw [Prod.mk.injEq] at hpair
            exact ⟨by rw [← hpair.1], hpair.2.symm⟩
          | some task =>
            simp only [hg] at h
            cases hup : LocalTaskService.updateTask { st with sessions := ss' }
                task.id { actualMinutes := some (task.actualMinutes + d) } now with
            | error err =>
              simp only [hup] at h
              exact absurd h (by simp)
            | ok q =>
              obtain ⟨st2, w⟩ := q
              simp only [hup] at h
              have hpair := Except.ok.inj h
              rw [Prod.mk.injEq] at hpair
              obtain ⟨_, _, _, _, _, _, _, _, hsess⟩ :=
                LocalTaskService.updateTask_ok _ _ _ _ _ _ hup
              refine ⟨?_, hpair.2.symm⟩
              rw [← hpair.1]
              exact hsess
    exact ⟨l1, s, l2, e1, e2, e3, by rw [hshape.2]; exact e4,
      by rw [hshape.1, e5, ← hshape.2]⟩

theorem sessions_updateTask (e : EngineState) (id : Nat) (dto : UpdateTaskDto)
    (now : Int) :
    (updateTask e id dto now).storage.sessions = e.storage.sessions := by
  unfold updateTask
  cases hcall : LocalTaskService.updateTask e.storage id dto now with
  | error err => rfl
  | ok p =>
    obtain ⟨st', u⟩ := p
    obtain ⟨_, _, _, _, _, _, _, _, hsess⟩ :=
      LocalTaskService.updateTask_ok _ _ _ _ _ _ hcall
    exact hsess

theorem openCount_replace_closed (l1 l2 : List TaskSession) (s u : TaskSession)
    (hu : u.endedAt.isNone = false) :
    openSessionCount (l1 ++ u :: l2) ≤ openSessionCount (l1 ++ s :: l2) := by
  rw [openCount_append, openCount_append, openCount_cons, openCount_cons, hu,
    if_neg (by simp : ¬(false = true))]
  split <;> omega

theorem gstep_open {a b : EngineState} (h : GStep a b)
    (ha : openSessionCount a.storage.sessions ≤ 1) :
    openSessionCount b.storage.sessions ≤ 1 := by
  cases h with
  | createTask dto now => exact ha
  | updateTask id dto now hdto => rw [sessions_updateTask]; exact ha
  | deleteTask id => exact ha
  | createSession dto now hg =>
    show openSessionCount (a.storage.sessions ++
      [LocalTaskService.newSessionRecord dto a.nextSessionId now]) ≤ 1
    rw [openCount_append, hg, openCount_cons]
    simp [LocalTaskService.newSessionRecord, openSessionCount]
  | startTask taskId now hg =>
    unfold startTask
    cases hcall : LocalTaskService.updateTask a.storage taskId
        { status := some TaskStatus.in_progress } now with
    | error err => exact ha
    | ok p =>
      obtain ⟨st1, u⟩ := p
      obtain ⟨_, _, _, _, _, _, _, _, hsess⟩ :=
        LocalTaskService.updateTask_ok _ _ _ _ _ _ hcall
      show openSessionCount (st1.sessions ++
        [LocalTaskService.newSessionRecord { taskId := taskId } a.nextSessionId now]) ≤ 1
      rw [openCount_append, hsess, hg, openCount_cons]
      simp [LocalTaskService.newSessionRecord, openSessionCount]
  | togglePause => exact ha
  | stopTask now ach pend =>
    cases hcs : a.currentSession with
    | none => rw [stopTask_none a now ach pend hcs]; exact ha
    | some cs =>
      rw [stopTask_some a now ach pend cs hcs]
      cases hcall : LocalTaskService.updateSession a.storage cs.id
          (stopDto a now ach pend cs) now with
      | error err => exact ha
      | ok p =>
        obtain ⟨st', u⟩ := p
        obtain ⟨l1, s, l2, e1, _, _, e4, e5⟩ :=
          updateSession_ok_shape _ _ _ _ _ _ hcall
        show openSessionCount st'.sessions ≤ 1
        rw [e5]
        refine le_trans (openCount_replace_closed l1 l2 s u ?_) ?_
        · rw [e4]
          rfl
        · rw [← e1]
          exact ha
  | completeTask taskId now => rw [show (completeTask a taskId now) = updateTask a
      taskId { status := some TaskStatus.done } now from rfl, sessions_updateTask]; exact ha
  | tick => rw [(tick_frame a).1]; exact ha
  | updateSettings s => exact ha

theorem tick_decrement (e : EngineState) (hr : e.timer.isRunning = true)
    (hp : e.timer.isPaused = false) (hpos : 1 < e.timer.timeRemaining) :
    tick e = { e with timer :=
      { e.timer with timeRemaining := e.timer.timeRemaining - 1 } } := by
  unfold tick
  rw [if_pos (by rw [hr, hp]; rfl), if_neg (by omega)]

theorem tick_complete (e : EngineState) (hr : e.timer.isRunning = true)
    (hp : e.timer.isPaused = false) (hle : e.timer.timeRemaining - 1 ≤ 0) :
    tick e = { e with timer :=
      { e.timer with
        isRunning := false
        timeRemaining := 0
        completedPomodoros := e.timer.completedPomodoros + 1 } } := by
  unfold tick
  rw [if_pos (by rw [hr, hp]; rfl), if_pos hle]

theorem tick_iter_complete (n : Nat) : ∀ e : EngineState,
    e.timer.isRunning = true → e.timer.isPaused = false →
    e.timer.timeRemaining = (n : Int) + 1 →
    tick^[n + 1] e = { e with timer :=
      { e.timer with
        isRunning := false
        timeRemaining := 0
        completedPomodoros := e.timer.completedPomodoros + 1 } } := by
  induction n with
  | zero =>
    intro e hr hp ht
    rw [Function.iterate_one]
    exact tick_complete e hr hp (by rw [ht]; norm_num)
  | succ n ih =>
    intro e hr hp ht
    rw [Function.iterate_succ_apply,
      tick_decrement e hr hp (by rw [ht]; push_cast; omega)]
    exact ih { e with timer :=
        { e.timer with timeRemaining := e.timer.timeRemaining - 1 } } hr hp
      (by show e.timer.timeRemaining - 1 = (n : Int) + 1
          rw [ht]; push_cast; ring)

theorem tick_iter_running (n : Nat) : ∀ e : EngineState,
    e.timer.isRunning = true → e.timer.isPaused = false →
    e.timer.timeRemaining = (n : Int) + 1 →
    (tick^[n] e).timer.isRunning = true ∧
      (tick^[n] e).timer.timeRemaining = 1 := by
  induction n with
  | zero =>
    intro e hr hp ht
    refine ⟨?_, ?_⟩ <;> rw [Function.iterate_zero_apply]
    · exact hr
    · rw [ht]; norm_num
  | succ n ih =>
    intro e hr hp ht
    rw [Function.iterate_succ_apply,
      tick_decrement e hr hp (by rw [ht]; push_cast; omega)]
    exact ih { e with timer :=
        { e.timer with timeRemaining := e.timer.timeRemaining - 1 } } hr hp
      (by show e.timer.timeRemaining - 1 = (n : Int) + 1
          rw [ht]; push_cast; ring)

theorem tick_iter_frame (n : Nat) (e : EngineState) :
    (tick^[n] e).storage = e.storage ∧
      (tick^[n] e).currentSession = e.currentSession := by
  induction n with
  | zero => exact ⟨rfl, rfl⟩
  | succ n ih =>
    rw [Function.iterate_succ_apply']
    exact ⟨(tick_frame _).1.trans ih.1, (tick_frame _).2.1.trans ih.2⟩

theorem tick_noop (e : EngineState)
    (h : (e.timer.isRunning && !e.timer.isPaused) = false) : tick e = e := by
  unfold tick
  rw [if_neg (by simp [h])]

theorem timer_updateTask (e : EngineState) (id : Nat) (dto : UpdateTaskDto)
    (now : Int) : (updateTask e id dto now).timer = e.timer := by
  unfold updateTask
  cases LocalTaskService.updateTask e.storage id dto now with
  | error err => rfl
  | ok p => rfl

end Engine

theorem fdiv_small (x : Int) (h1 : 0 ≤ x) (h2 : x < 60000) :
    Int.fdiv x 60000 = 0 := by
  rw [Int.fdiv_eq_ediv _ (by norm_num)]
  exact Int.ediv_eq_zero_of_lt h1 h2

theorem mem_id_unique (l : List Task) (hnd : (l.map Task.id).Nodup)
    (t u : Task) (ht : t ∈ l) (hu : u ∈ l) (h : u.id = t.id) : u = t := by
  obtain ⟨L1, L2, rfl⟩ := List.append_of_mem ht
  exact nodup_middle_eq Task.id L1 L2 t u hnd hu h

namespace LocalTaskService

theorem applyTaskUpdate_completedAt_some (t : Task) (dto : UpdateTaskDto)
    (now : Int) (c : Int) (h : t.completedAt = some c) :
    (applyTaskUpdate t dto now).completedAt = some c := by
  unfold applyTaskUpdate
  rw [if_neg (fun hcon => by rw [h] at hcon; exact absurd hcon.2 (by simp))]
  exact h

theorem applyTaskUpdate_completedAt_stamp (t : Task) (dto : UpdateTaskDto)
    (now : Int) (h1 : t.completedAt = none)
    (h2 : dto.status = some TaskStatus.done) :
    (applyTaskUpdate t dto now).completedAt = some now := by
  unfold applyTaskUpdate
  rw [if_pos ⟨h2, h1⟩]

theorem applyTaskUpdate_completedAt_keep_none (t : Task) (dto : UpdateTaskDto)
    (now : Int) (h1 : t.completedAt = none)
    (h2 : dto.status ≠ some TaskStatus.done) :
    (applyTaskUpdate t dto now).completedAt = none := by
  unfold applyTaskUpdate
  rw [if_neg (fun hcon => h2 hcon.1)]
  exact h1

/-- A `updateTask` success reached through the first id-match seen by
`getTaskById` rewrites exactly that record. -/
theorem updateTask_ok_record (st : Storage) (id : Nat) (dto : UpdateTaskDto)
    (now : Int) (st' : Storage) (u t : Task)
    (hok : updateTask st id dto now = Except.ok (st', u))
    (hfind : getTaskById st id = some t) :
    u = applyTaskUpdate t dto now := by
  obtain ⟨l1, t0, l2, e1, e2, e3, e4, _, _⟩ := updateTask_ok _ _ _ _ _ _ hok
  have : getTaskById st id = some t0 := by
    unfold getTaskById
    rw [e1]
    exact find?_append_cons _ l1 l2 t0 (fun x hx => by simp [e3 x hx]) (by simp [e2])
  rw [hfind] at this
  rw [e4, Option.some.inj this]

end LocalTaskService

namespace Engine

/-- Once a task's `completedAt` is set, replacing the first id-match of any
update partial leaves it set. -/
theorem completedAt_preserved_replace (tasks : List Task)
    (hnd : (tasks.map Task.id).Nodup)
    (l1 l2 : List Task) (t0 : Task) (dto : UpdateTaskDto) (now : Int)
    (hdec : tasks = l1 ++ t0 :: l2)
    (t : Task) (htm : t ∈ tasks) (c : Int) (hc : t.completedAt = some c) :
    ∀ u ∈ l1 ++ LocalTaskService.applyTaskUpdate t0 dto now :: l2,
      u.id = t.id → u.completedAt = some c := by
  intro u hu hid
  rcases List.mem_append.mp hu with hu1 | hu1
  · rw [mem_id_unique tasks hnd t u htm (hdec ▸ List.mem_append_left _ hu1) hid]
    exact hc
  · rcases List.mem_cons.mp hu1 with rfl | hu1
    · have ht0 : t0 ∈ tasks := hdec ▸ List.mem_append_right _ (List.mem_cons_self _ _)
      have : t0 = t := mem_id_unique tasks hnd t t0 htm ht0
        (by rw [← hid]; rfl)
      rw [this]
      exact LocalTaskService.applyTaskUpdate_completedAt_some t dto now c hc
    · rw [mem_id_unique tasks hnd t u htm
        (hdec ▸ List.mem_append_right _ (List.mem_cons_of_mem _ hu1)) hid]
      exact hc

theorem completedAt_unchanged (l : List Task) (hnd : (l.map Task.id).Nodup)
    (t : Task) (htm : t ∈ l) (c : Int) (hc : t.completedAt = some c) :
    ∀ x ∈ l, x.id = t.id → x.completedAt = some c := by
  intro x hx hid
  rw [mem_id_unique l hnd t x htm hx hid]
  exact hc

/-- Once set, `completedAt` survives any successful `updateSession`
(whose internal `updateTask` call never carries a `status`). -/
theorem updateSession_completedAt (st : Storage) (id : Nat)
    (dto : UpdateSessionDto) (now : Int) (st' : Storage) (u : TaskSession)
    (hnd : (st.tasks.map Task.id).Nodup)
    (h : LocalTaskService.updateSession st id dto now = Except.ok (st', u)) :
    ∀ t ∈ st.tasks, ∀ c, t.completedAt = some c →
      ∀ x ∈ st'.tasks, x.id = t.id → x.completedAt = some c := by
  intro t htm c hc
  unfold LocalTaskService.updateSession at h
  cases hrec : LocalTaskService.updateSessionList st.sessions id dto with
  | none => rw [hrec] at h; exact absurd h (by simp)
  | some p =>
    obtain ⟨ss', u0⟩ := p
    rw [hrec] at h
    cases hd : dto.durationMinutes with
    | none =>
      simp only [hd] at h
      have hpair := Except.ok.inj h
      rw [Prod.mk.injEq] at hpair
      rw [← hpair.1]
      exact completedAt_unchanged st.tasks hnd t htm c hc
    | some d =>
      by_cases hdz : d = 0
      · subst hdz
        simp only [hd, if_pos rfl, if_true] at h
        have hpair := Except.ok.inj h
        rw [Prod.mk.injEq] at hpair
        rw [← hpair.1]
        exact completedAt_unchanged st.tasks hnd t htm c hc
      · simp only [hd, if_neg hdz] at h
        cases hg : LocalTaskService.getTaskById
            { st with sessions := ss' } u0.taskId with
        | none =>
          simp only [hg] at h
          have hpair := Except.ok.inj h
          rw [Prod.mk.injEq] at hpair
          rw [← hpair.1]
          exact completedAt_unchanged st.tasks hnd t htm c hc
        | some task =>
          simp only [hg] at h
          cases hup : LocalTaskService.updateTask { st with sessions := ss' }
              task.id { actualMinutes := some (task.actualMinutes + d) } now with
          | error err =>
            simp only [hup] at h
            exact absurd h (by simp)
          | ok q =>
            obtain ⟨st2, w⟩ := q
            simp only [hup] at h
            have hpair := Except.ok.inj h
            rw [Prod.mk.injEq] at hpair
            rw [← hpair.1]
            obtain ⟨m1, t0, m2, e1, e2, e3, e4, e5, _⟩ :=
              LocalTaskService.updateTask_ok _ _ _ _ _ _ hup
            rw [e5, e4]
            exact completedAt_preserved_replace st.tasks hnd m1 m2 t0 _ now e1
              t htm c hc

/-- Once set, a stored task's `completedAt` survives every engine step. -/
theorem step_completedAt {a b : EngineState} (hs : Step a b) (hi : Inv a) :
    ∀ t ∈ a.storage.tasks, ∀ c, t.completedAt = some c →
      ∀ u ∈ b.storage.tasks, u.id = t.id → u.completedAt = some c := by
  intro t htm c hc
  cases hs with
  | createTask dto now =>
    intro u hu hid
    rcases List.mem_append.mp hu with hu1 | hu1
    · exact completedAt_unchanged a.storage.tasks hi.tasks_nodup t htm c hc u hu1 hid
    · rw [List.mem_singleton.mp hu1] at hid
      exact absurd hid (by
        show ¬ (LocalTaskService.newTaskRecord dto a.nextTaskId now).id = t.id
        intro hco
        have := hi.tasks_bound t htm
        rw [show (LocalTaskService.newTaskRecord dto a.nextTaskId now).id =
          a.nextTaskId from rfl] at hco
        omega)
  | updateTask id dto now hact =>
    unfold updateTask
    cases hcall : LocalTaskService.updateTask a.storage id dto now with
    | error err => exact completedAt_unchanged a.storage.tasks hi.tasks_nodup t htm c hc
    | ok p =>
      obtain ⟨st', u⟩ := p
      obtain ⟨l1, t0, l2, e1, e2, e3, e4, e5, _⟩ :=
        LocalTaskService.updateTask_ok _ _ _ _ _ _ hcall
      intro x hx hid
      have hx' : x ∈ l1 ++ LocalTaskService.applyTaskUpdate t0 dto now :: l2 := by
        rw [← e4, ← e5]
        exact hx
      exact completedAt_preserved_replace a.storage.tasks hi.tasks_nodup
        l1 l2 t0 dto now e1 t htm c hc x hx' hid
  | deleteTask id =>
    intro u hu hid
    exact completedAt_unchanged a.storage.tasks hi.tasks_nodup t htm c hc u
      (List.mem_of_mem_filter hu) hid
  | createSession dto now =>
    exact completedAt_unchanged a.storage.tasks hi.tasks_nodup t htm c hc
  | startTask taskId now =>
    unfold startTask
    cases hcall : LocalTaskService.updateTask a.storage taskId
        { status := some TaskStatus.in_progress } now with
    | error err => exact completedAt_unchanged a.storage.tasks hi.tasks_nodup t htm c hc
    | ok p =>
      obtain ⟨st1, u⟩ := p
      obtain ⟨l1, t0, l2, e1, e2, e3, e4, e5, _⟩ :=
        LocalTaskService.updateTask_ok _ _ _ _ _ _ hcall
      intro x hx hid
      have hx' : x ∈ l1 ++ LocalTaskService.applyTaskUpdate t0
          { status := some TaskStatus.in_progress } now :: l2 := by
        rw [← e4, ← e5]
        exact hx
      exact completedAt_preserved_replace a.storage.tasks hi.tasks_nodup
        l1 l2 t0 _ now e1 t htm c hc x hx' hid
  | togglePause =>
    exact completedAt_unchanged a.storage.tasks hi.tasks_nodup t htm c hc
  | stopTask now ach pend =>
    cases hcs : a.currentSession with
    | none =>
      rw [stopTask_none a now ach pend hcs]
      exact completedAt_unchanged a.storage.tasks hi.tasks_nodup t htm c hc
    | some cs =>
      rw [stopTask_some a now ach pend cs hcs]
      cases hcall : LocalTaskService.updateSession a.storage cs.id
          (stopDto a now ach pend cs) now with
      | error err =>
        exact completedAt_unchanged a.storage.tasks hi.tasks_nodup t htm c hc
      | ok p =>
        obtain ⟨st', u⟩ := p
        exact updateSession_completedAt a.storage cs.id _ now st' u
          hi.tasks_nodup hcall t htm c hc
  | completeTask taskId now =>
    unfold completeTask updateTask
    cases hcall : LocalTaskService.updateTask a.storage taskId
        { status := some TaskStatus.done } now with
    | error err => exact completedAt_unchanged a.storage.tasks hi.tasks_nodup t htm c hc
    | ok p =>
      obtain ⟨st', u⟩ := p
      obtain ⟨l1, t0, l2, e1, e2, e3, e4, e5, _⟩ :=
        LocalTaskService.updateTask_ok _ _ _ _ _ _ hcall
      intro x hx hid
      have hx' : x ∈ l1 ++ LocalTaskService.applyTaskUpdate t0
          { status := some TaskStatus.done } now :: l2 := by
        rw [← e4, ← e5]
        exact hx
      exact completedAt_preserved_replace a.storage.tasks hi.tasks_nodup
        l1 l2 t0 _ now e1 t htm c hc x hx' hid
  | tick =>
    rw [(tick_frame a).1]
    exact completedAt_unchanged a.storage.tasks hi.tasks_nodup t htm c hc
  | updateSettings s =>
    exact completedAt_unchanged a.storage.tasks hi.tasks_nodup t htm c hc

end Engine

/-! Claims.  Each claim of the specification gets exactly one theorem
below (plus, where the claim fails on the code, a counterexample at a
concrete input, and a witness where the theorem carries hypotheses). -/

/-- C1 (counterexample): the claim says that in every state reachable by
the engine's operations from empty storage at most one session has
`endedAt = null`.  The source's `startTask` never checks for an already
open session, so the concrete trace createTask, createTask,
`startTask(task 0)`, `startTask(task 1)` is reachable and ends with two
sessions whose `endedAt` is null — the claim is false as stated. -/
theorem C1_counterexample :
    Engine.Reachable (Engine.startTask (Engine.startTask (Engine.createTask
      (Engine.createTask Engine.initEngine { title := "a" } 0)
        { title := "b" } 0) 0 0) 1 0) ∧
    Engine.openSessionCount (Engine.startTask (Engine.startTask
      (Engine.createTask (Engine.createTask Engine.initEngine
        { title := "a" } 0) { title := "b" } 0) 0 0) 1 0).storage.sessions = 2 := by
  constructor
  · exact Relation.ReflTransGen.head
      (Engine.Step.createTask _ { title := "a" } 0)
      (Relation.ReflTransGen.head (Engine.Step.createTask _ { title := "b" } 0)
        (Relation.ReflTransGen.head (Engine.Step.startTask _ 0 0)
          (Relation.ReflTransGen.head (Engine.Step.startTask _ 1 0)
            Relation.ReflTransGen.refl)))
  · decide

/-- C1 (amended): at most one session system-wide has `endedAt = null` in
every state reachable from empty storage under the guarded calling
discipline, in which `startTask` and a direct `createSession` are invoked
only while no session is open.  (The unguarded engine reaches a state
with two open sessions — see the counterexample — which is exactly the
open question the spec's design notes flag.) -/
theorem C1_at_most_one_open_guarded (e : Engine.EngineState)
    (h : Engine.GReachable e) :
    Engine.openSessionCount e.storage.sessions ≤ 1 := by
  have h' : Relation.ReflTransGen Engine.GStep Engine.initEngine e := h
  clear h
  induction h' with
  | refl => decide
  | tail _ hstep ih => exact Engine.gstep_open hstep ih

theorem C1_witness :
    Engine.openSessionCount (Engine.startTask (Engine.createTask
      Engine.initEngine { title := "a" } 0) 0 5).storage.sessions ≤ 1 := by
  have hreach : Engine.GReachable (Engine.startTask (Engine.createTask
      Engine.initEngine { title := "a" } 0) 0 5) :=
    Relation.ReflTransGen.head (Engine.GStep.createTask _ { title := "a" } 0)
      (Relation.ReflTransGen.head (Engine.GStep.startTask _ 0 5 (by decide))
        Relation.ReflTransGen.refl)
  exact C1_at_most_one_open_guarded _ hreach

/-- C2: in every state reachable from empty storage by the engine's
operations, every stored task's `actualMinutes` equals the sum of
`durationMinutes` over its closed (`endedAt` set) stored sessions: the
field starts at 0 on creation and only the session-closing write of
`stopTask` (which always carries `endedAt`) credits it, via
`updateSession`'s side effect. -/
theorem C2_actualMinutes_eq_closedSum (e : Engine.EngineState)
    (h : Engine.Reachable e) :
    ∀ t ∈ e.storage.tasks,
      t.actualMinutes = Engine.closedSum e.storage.sessions t.id :=
  (Engine.reachable_inv h).minutes

theorem C2_witness :
    ((Engine.stopTask (Engine.startTask (Engine.createTask Engine.initEngine
        { title := "a" } 0) 0 0) 120000 none none).storage.tasks.headI).actualMinutes =
      Engine.closedSum (Engine.stopTask (Engine.startTask (Engine.createTask
          Engine.initEngine { title := "a" } 0) 0 0)
        120000 none none).storage.sessions
        ((Engine.stopTask (Engine.startTask (Engine.createTask Engine.initEngine
          { title := "a" } 0) 0 0) 120000 none none).storage.tasks.headI).id := by
  have hreach : Engine.Reachable (Engine.stopTask (Engine.startTask
      (Engine.createTask Engine.initEngine { title := "a" } 0) 0 0)
      120000 none none) :=
    Relation.ReflTransGen.head (Engine.Step.createTask _ { title := "a" } 0)
      (Relation.ReflTransGen.head (Engine.Step.startTask _ 0 0)
        (Relation.ReflTransGen.head (Engine.Step.stopTask _ 120000 none none)
          Relation.ReflTransGen.refl))
  exact C2_actualMinutes_eq_closedSum _ hreach _ (by decide)

/-- C3: with a current session `cs` (stored as `s0`), `stopTask` closes it
in place: `endedAt = now`, `durationMinutes = Math.floor` of the
wall-clock milliseconds between the session's `startedAt` and `now`
divided by 60000 (independent of the countdown and of pauses),
`completed = (timeRemaining ≤ 0)`, the given `achievement`/`pending`
texts; then it clears the current session and resets the timer to
`isRunning = false`, `isPaused = false`,
`timeRemaining = workDuration * 60`.  In particular, a stop after fewer
than 60 elapsed seconds while the countdown has not reached zero yields
`durationMinutes = 0`, `completed = false`, and leaves every task —
hence every `actualMinutes` — untouched. -/
theorem C3_stopTask (e : Engine.EngineState) (now : Int)
    (ach pend : Option String) (cs s0 : TaskSession)
    (hcs : e.currentSession = some cs)
    (hs0 : e.storage.sessions.find? (fun s => s.id == cs.id) = some s0) :
    (Engine.stopTask e now ach pend).currentSession = none ∧
    (Engine.stopTask e now ach pend).timer.isRunning = false ∧
    (Engine.stopTask e now ach pend).timer.isPaused = false ∧
    (Engine.stopTask e now ach pend).timer.timeRemaining =
      e.settings.workDuration * 60 ∧
    (Engine.stopTask e now ach pend).storage.sessions.find?
        (fun s => s.id == cs.id) =
      some { s0 with
        endedAt := some now
        durationMinutes := Int.fdiv (now - cs.startedAt) 60000
        completed := decide (e.timer.timeRemaining ≤ 0)
        achievement := ach
        pending := pend } ∧
    (0 ≤ now - cs.startedAt → now - cs.startedAt < 60000 →
      0 < e.timer.timeRemaining →
      Int.fdiv (now - cs.startedAt) 60000 = 0 ∧
      decide (e.timer.timeRemaining ≤ 0) = false ∧
      (Engine.stopTask e now ach pend).storage.tasks = e.storage.tasks) := by
  obtain ⟨hp, A, B, hAB, hApre⟩ := find?_some_decomp _ _ _ hs0
  have hs0id : s0.id = cs.id := by simpa using hp
  have hA : ∀ x ∈ A, x.id ≠ cs.id := fun x hx => by simpa using hApre x hx
  have hmerged : LocalTaskService.applySessionUpdate s0
      (Engine.stopDto e now ach pend cs) =
      { s0 with
        endedAt := some now
        durationMinutes := Int.fdiv (now - cs.startedAt) 60000
        completed := decide (e.timer.timeRemaining ≤ 0)
        achievement := ach
        pending := pend } := rfl
  have hfind' : ∀ (C D : List TaskSession), (∀ x ∈ C, x.id ≠ cs.id) →
      (C ++ LocalTaskService.applySessionUpdate s0
        (Engine.stopDto e now ach pend cs) :: D).find?
          (fun s => s.id == cs.id) =
        some (LocalTaskService.applySessionUpdate s0
          (Engine.stopDto e now ach pend cs)) :=
    fun C D hC => find?_append_cons _ C D _ (fun x hx => by simp [hC x hx])
      (by show (s0.id == cs.id) = true; simp [hs0id])
  rw [Engine.stopTask_some e now ach pend cs hcs]
  by_cases hdz : Int.fdiv (now - cs.startedAt) 60000 = 0
  · rw [LocalTaskService.updateSession_no_credit e.storage cs.id _ now A B s0
      hAB hA hs0id (Or.inr (Or.inl (by simp [Engine.stopDto, hdz])))]
    refine ⟨rfl, rfl, rfl, rfl, ?_, ?_⟩
    · rw [← hmerged]
      exact hfind' A B hA
    · intro h1 h2 h3
      exact ⟨hdz, decide_eq_false (not_le.mpr h3), rfl⟩
  · cases hfind : LocalTaskService.getTaskById e.storage
        (LocalTaskService.applySessionUpdate s0
          (Engine.stopDto e now ach pend cs)).taskId with
    | none =>
      rw [LocalTaskService.updateSession_no_credit e.storage cs.id _ now A B s0
        hAB hA hs0id (Or.inr (Or.inr ⟨_, rfl, hfind⟩))]
      refine ⟨rfl, rfl, rfl, rfl, ?_, ?_⟩
      · rw [← hmerged]
        exact hfind' A B hA
      · intro h1 h2 h3
        exact absurd (fdiv_small _ h1 h2) hdz
    | some task =>
      obtain ⟨htaskmem, htaskid⟩ := LocalTaskService.getTaskById_mem _ _ _ hfind
      rw [LocalTaskService.updateSession_credit e.storage cs.id _ now A B s0
        (Int.fdiv (now - cs.startedAt) 60000) task hAB hA hs0id rfl hdz hfind]
      have hfind2 : LocalTaskService.getTaskById
          { e.storage with sessions := (A ++
            (LocalTaskService.applySessionUpdate s0
              (Engine.stopDto e now ach pend cs)) :: B) } task.id = some task := by
        rw [LocalTaskService.getTaskById_set_sessions, htaskid]
        exact hfind
      obtain ⟨m1, m2, hm, hm1, _, hok⟩ :=
        LocalTaskService.updateTask_find _ task.id
          { actualMinutes := some (task.actualMinutes +
              Int.fdiv (now - cs.startedAt) 60000) } now task hfind2
      rw [hok]
      refine ⟨rfl, rfl, rfl, rfl, ?_, ?_⟩
      · rw [← hmerged]
        exact hfind' A B hA
      · intro h1 h2 h3
        exact absurd (fdiv_small _ h1 h2) hdz

theorem C3_witness :
    (Engine.stopTask (Engine.startTask (Engine.createTask Engine.initEngine
      { title := "a" } 0) 0 0) 10000 none none).currentSession = none ∧
    (Engine.stopTask (Engine.startTask (Engine.createTask Engine.initEngine
      { title := "a" } 0) 0 0) 10000 none none).timer.timeRemaining = 1500 ∧
    (Engine.stopTask (Engine.startTask (Engine.createTask Engine.initEngine
        { title := "a" } 0) 0 0) 10000 none none).storage.tasks =
      (Engine.startTask (Engine.createTask Engine.initEngine
        { title := "a" } 0) 0 0).storage.tasks := by
  have h := C3_stopTask
    (Engine.startTask (Engine.createTask Engine.initEngine { title := "a" } 0) 0 0)
    10000 none none
    ⟨0, 0, 0, none, 0, SessionType.pomodoro, false, none, none, none⟩
    ⟨0, 0, 0, none, 0, SessionType.pomodoro, false, none, none, none⟩
    (by decide) (by decide)
  refine ⟨h.1, ?_, (h.2.2.2.2.2 (by decide) (by decide) (by decide)).2.2⟩
  rw [h.2.2.2.1]
  decide

/-- C4: for any existing task id, `startTask` flips that task's status to
`in_progress` (refreshing `updatedAt`), appends one open session of type
`pomodoro` with `startedAt = now`, `durationMinutes = 0`,
`completed = false` and records it as the current session, and
initializes the timer to `totalTime = timeRemaining = workDuration * 60`
with `isRunning = true`, `isPaused = false`, keeping
`completedPomodoros`; with `workDuration = 25` that is
`timeRemaining = totalTime = 1500`. -/
theorem C4_startTask (e : Engine.EngineState) (tid : Nat) (now : Int) (t : Task)
    (ht : LocalTaskService.getTaskById e.storage tid = some t) :
    LocalTaskService.getTaskById (Engine.startTask e tid now).storage tid =
      some { t with status := TaskStatus.in_progress, updatedAt := now } ∧
    (Engine.startTask e tid now).storage.sessions =
      e.storage.sessions ++
        [{ id := e.nextSessionId, taskId := tid, startedAt := now,
           endedAt := none, durationMinutes := 0,
           type := SessionType.pomodoro, completed := false,
           achievement := none, pending := none, notes := none }] ∧
    (Engine.startTask e tid now).currentSession =
      some { id := e.nextSessionId, taskId := tid, startedAt := now,
             endedAt := none, durationMinutes := 0,
             type := SessionType.pomodoro, completed := false,
             achievement := none, pending := none, notes := none } ∧
    (Engine.startTask e tid now).timer =
      { isRunning := true, isPaused := false,
        timeRemaining := e.settings.workDuration * 60,
        totalTime := e.settings.workDuration * 60,
        sessionType := SessionType.pomodoro,
        completedPomodoros := e.timer.completedPomodoros } ∧
    (e.settings.workDuration = 25 →
      (Engine.startTask e tid now).timer.timeRemaining = 1500 ∧
      (Engine.startTask e tid now).timer.totalTime = 1500) := by
  obtain ⟨l1, l2, he, hl1, htid, hok⟩ :=
    LocalTaskService.updateTask_find e.storage tid
      { status := some TaskStatus.in_progress } now t ht
  unfold Engine.startTask
  rw [hok]
  refine ⟨?_, rfl, rfl, rfl, ?_⟩
  · exact find?_append_cons _ l1 l2 _ (fun x hx => by simp [hl1 x hx])
      (by show (t.id == tid) = true; simp [htid])
  · intro h25
    constructor
    · show e.settings.workDuration * 60 = 1500
      rw [h25]
      norm_num
    · show e.settings.workDuration * 60 = 1500
      rw [h25]
      norm_num

theorem C4_witness :
    LocalTaskService.getTaskById (Engine.startTask (Engine.createTask
        Engine.initEngine { title := "a" } 0) 0 5).storage 0 =
      some { id := 0, noteId := none, title := "a", description := none,
             status := TaskStatus.in_progress, priority := TaskPriority.medium,
             dueDate := none, estimatedMinutes := none, actualMinutes := 0,
             tags := [], createdAt := 0, updatedAt := 5, completedAt := none } ∧
    (Engine.startTask (Engine.createTask Engine.initEngine
      { title := "a" } 0) 0 5).timer.timeRemaining = 1500 ∧
    (Engine.startTask (Engine.createTask Engine.initEngine
      { title := "a" } 0) 0 5).timer.totalTime = 1500 := by
  have h := C4_startTask (Engine.createTask Engine.initEngine { title := "a" } 0)
    0 5
    { id := 0, noteId := none, title := "a", description := none,
      status := TaskStatus.todo, priority := TaskPriority.medium,
      dueDate := none, estimatedMinutes := none, actualMinutes := 0,
      tags := [], createdAt := 0, updatedAt := 0, completedAt := none }
    (by decide)
  have h25 := h.2.2.2.2 (by decide)
  refine ⟨?_, h25.1, h25.2⟩
  rw [h.1]

/-- C5: a tick fired while running and unpaused never touches storage or
the current session; the tick taken at `timeRemaining = 1` (the one that
brings it to 0) stops the timer at exactly 0 and increments
`completedPomodoros` by exactly one; and from `timeRemaining = 1500`
exactly 1500 ticks produce that completed state (after 1499 the timer is
still running), with storage and the current session — hence the open
session and the task's `in_progress` status — unchanged until `stopTask`
is subsequently called. -/
theorem C5_natural_completion (e : Engine.EngineState)
    (hr : e.timer.isRunning = true) (hp : e.timer.isPaused = false) :
    (Engine.tick e).storage = e.storage ∧
    (Engine.tick e).currentSession = e.currentSession ∧
    (e.timer.timeRemaining = 1 →
      Engine.tick e = { e with timer :=
        { e.timer with
          isRunning := false
          timeRemaining := 0
          completedPomodoros := e.timer.completedPomodoros + 1 } }) ∧
    (e.timer.timeRemaining = 1500 →
      Engine.tick^[1500] e = { e with timer :=
        { e.timer with
          isRunning := false
          timeRemaining := 0
          completedPomodoros := e.timer.completedPomodoros + 1 } } ∧
      (Engine.tick^[1499] e).timer.isRunning = true ∧
      (Engine.tick^[1500] e).storage = e.storage ∧
      (Engine.tick^[1500] e).currentSession = e.currentSession) := by
  refine ⟨(Engine.tick_frame e).1, (Engine.tick_frame e).2.1, ?_, ?_⟩
  · intro h1
    exact Engine.tick_complete e hr hp (by rw [h1]; norm_num)
  · intro h1500
    refine ⟨?_, ?_, (Engine.tick_iter_frame 1500 e).1,
      (Engine.tick_iter_frame 1500 e).2⟩
    · exact Engine.tick_iter_complete 1499 e hr hp (by rw [h1500]; norm_num)
    · exact (Engine.tick_iter_running 1499 e hr hp (by rw [h1500]; norm_num)).1

theorem C5_witness :
    (Engine.tick^[1500] (Engine.startTask (Engine.createTask Engine.initEngine
      { title := "a" } 0) 0 0)).timer.isRunning = false ∧
    (Engine.tick^[1500] (Engine.startTask (Engine.createTask Engine.initEngine
      { title := "a" } 0) 0 0)).timer.timeRemaining = 0 ∧
    (Engine.tick^[1500] (Engine.startTask (Engine.createTask Engine.initEngine
      { title := "a" } 0) 0 0)).timer.completedPomodoros = 1 ∧
    (Engine.tick^[1499] (Engine.startTask (Engine.createTask Engine.initEngine
      { title := "a" } 0) 0 0)).timer.isRunning = true ∧
    (Engine.tick^[1500] (Engine.startTask (Engine.createTask Engine.initEngine
        { title := "a" } 0) 0 0)).storage =
      (Engine.startTask (Engine.createTask Engine.initEngine
        { title := "a" } 0) 0 0).storage := by
  have h := C5_natural_completion (Engine.startTask (Engine.createTask
    Engine.initEngine { title := "a" } 0) 0 0) (by decide) (by decide)
  have h4 := h.2.2.2 (by decide)
  refine ⟨?_, ?_, ?_, h4.2.1, h4.2.2.1⟩
  · rw [h4.1]
  · rw [h4.1]
  · rw [h4.1]
    decide

/-- C6: the `updateTask` merge stamps `completedAt = now` exactly when the
partial sets `status = done` while the stored `completedAt` is unset; any
update of a task whose `completedAt` is already set keeps it (in
particular repeated `status = done` updates), an update that does not set
`status = done` leaves an unset `completedAt` unset, and across every
engine operation a stored task's set `completedAt` is never cleared or
overwritten. -/
theorem C6_completedAt_write_once :
    (∀ (st : Storage) (id : Nat) (dto : UpdateTaskDto) (now : Int)
        (st' : Storage) (u t : Task),
      LocalTaskService.updateTask st id dto now = Except.ok (st', u) →
      LocalTaskService.getTaskById st id = some t →
      ((t.completedAt = none → dto.status = some TaskStatus.done →
          u.completedAt = some now) ∧
       (∀ c, t.completedAt = some c → u.completedAt = some c) ∧
       (t.completedAt = none → dto.status ≠ some TaskStatus.done →
          u.completedAt = none))) ∧
    (∀ a b : Engine.EngineState, Engine.Step a b → Engine.Inv a →
      ∀ t ∈ a.storage.tasks, ∀ c, t.completedAt = some c →
      ∀ u ∈ b.storage.tasks, u.id = t.id → u.completedAt = some c) := by
  constructor
  · intro st id dto now st' u t hok hfind
    have hu : u = LocalTaskService.applyTaskUpdate t dto now :=
      LocalTaskService.updateTask_ok_record st id dto now st' u t hok hfind
    subst hu
    refine ⟨?_, ?_, ?_⟩
    · intro h1 h2
      exact LocalTaskService.applyTaskUpdate_completedAt_stamp t dto now h1 h2
    · intro c hc
      exact LocalTaskService.applyTaskUpdate_completedAt_some t dto now c hc
    · intro h1 h2
      exact LocalTaskService.applyTaskUpdate_completedAt_keep_none t dto now h1 h2
  · intro a b hs hi
    exact Engine.step_completedAt hs hi

theorem C6_witness :
    LocalTaskService.updateTask
        { tasks := [{ id := 0, noteId := none, title := "a", description := none,
                      status := TaskStatus.todo, priority := TaskPriority.medium,
                      dueDate := none, estimatedMinutes := none, actualMinutes := 0,
                      tags := [], createdAt := 0, updatedAt := 0,
                      completedAt := none }], sessions := [] } 0
        { status := some TaskStatus.done } 7 =
      Except.ok
        ({ tasks := [LocalTaskService.applyTaskUpdate
            { id := 0, noteId := none, title := "a", description := none,
              status := TaskStatus.todo, priority := TaskPriority.medium,
              dueDate := none, estimatedMinutes := none, actualMinutes := 0,
              tags := [], createdAt := 0, updatedAt := 0, completedAt := none }
            { status := some TaskStatus.done } 7], sessions := [] },
          LocalTaskService.applyTaskUpdate
            { id := 0, noteId := none, title := "a", description := none,
              status := TaskStatus.todo, priority := TaskPriority.medium,
              dueDate := none, estimatedMinutes := none, actualMinutes := 0,
              tags := [], createdAt := 0, updatedAt := 0, completedAt := none }
            { status := some TaskStatus.done } 7) ∧
    (LocalTaskService.applyTaskUpdate
        { id := 0, noteId := none, title := "a", description := none,
          status := TaskStatus.todo, priority := TaskPriority.medium,
          dueDate := none, estimatedMinutes := none, actualMinutes := 0,
          tags := [], createdAt := 0, updatedAt := 0, completedAt := none }
        { status := some TaskStatus.done } 7).completedAt = some 7 := by
  refine ⟨rfl, ?_⟩
  have h := C6_completedAt_write_once.1
    { tasks := [{ id := 0, noteId := none, title := "a", description := none, status := TaskStatus.todo, priority := TaskPriority.medium, dueDate := none, estimatedMinutes := none, actualMinutes := 0, tags := [], createdAt := 0, updatedAt := 0, completedAt := none }], sessions := [] }
    0 { status := some TaskStatus.done } 7
    { tasks := [LocalTaskService.applyTaskUpdate { id := 0, noteId := none, title := "a", description := none, status := TaskStatus.todo, priority := TaskPriority.medium, dueDate := none, estimatedMinutes := none, actualMinutes := 0, tags := [], createdAt := 0, updatedAt := 0, completedAt := none } { status := some TaskStatus.done } 7], sessions := [] }
    (LocalTaskService.applyTaskUpdate { id := 0, noteId := none, title := "a", description := none, status := TaskStatus.todo, priority := TaskPriority.medium, dueDate := none, estimatedMinutes := none, actualMinutes := 0, tags := [], createdAt := 0, updatedAt := 0, completedAt := none } { status := some TaskStatus.done } 7)
    { id := 0, noteId := none, title := "a", description := none, status := TaskStatus.todo, priority := TaskPriority.medium, dueDate := none, estimatedMinutes := none, actualMinutes := 0, tags := [], createdAt := 0, updatedAt := 0, completedAt := none }
    rfl rfl
  exact h.1 rfl rfl

/-- C7 (counterexample): the claim asserts that each of `updateTask`,
`deleteTask` and `getTaskById` fails with a NotFound error on an unknown
id.  On the concrete empty storage and unknown id 7, `deleteTask` returns
normally with the storage unchanged and `getTaskById` returns null — only
`updateTask` actually throws — so the claim as stated is false. -/
theorem C7_counterexample :
    LocalTaskService.deleteTask { tasks := [], sessions := [] } 7 =
        { tasks := [], sessions := [] } ∧
      LocalTaskService.getTaskById { tasks := [], sessions := [] } 7 = none :=
  ⟨rfl, rfl⟩

/-- C7 (amended): on an id matching no stored task, `updateTask` fails
with the `"Task not found"` error and leaves the stored tasks unchanged
(nothing is saved on the throw), while `deleteTask` succeeds silently
leaving the storage unchanged (the filter removes nothing) and
`getTaskById` returns null rather than failing. -/
theorem C7_unknown_id (st : Storage) (id : Nat)
    (h : ∀ t ∈ st.tasks, t.id ≠ id) :
    (∀ dto now, LocalTaskService.updateTask st id dto now =
      Except.error "Task not found") ∧
    LocalTaskService.deleteTask st id = st ∧
    LocalTaskService.getTaskById st id = none := by
  refine ⟨fun dto now => LocalTaskService.updateTask_not_found st id dto now h,
    ?_, LocalTaskService.getTaskById_eq_none st id h⟩
  show ({ st with tasks := st.tasks.filter (fun t => t.id ≠ id) } : Storage) = st
  have hfil : st.tasks.filter (fun t => t.id ≠ id) = st.tasks :=
    List.filter_eq_self.mpr (fun a ha => by simp [h a ha])
  rw [hfil]

theorem C7_witness :
    LocalTaskService.updateTask { tasks := [], sessions := [] } 7 {} 0 =
        Except.error "Task not found" ∧
      LocalTaskService.deleteTask { tasks := [], sessions := [] } 7 =
        { tasks := [], sessions := [] } ∧
      LocalTaskService.getTaskById { tasks := [], sessions := [] } 7 = none := by
  have h := C7_unknown_id { tasks := [], sessions := [] } 7 (by simp)
  exact ⟨h.1 {} 0, h.2.1, h.2.2⟩

/-- C8: updating an existing task with the empty partial rewrites only
that task's `updatedAt`: the stored and returned record is the old record
with `updatedAt := now` (so status, priority, title, description, tags,
actualMinutes, completedAt, createdAt and every other field are
unchanged), and every other task — and the sessions — are untouched. -/
theorem C8_empty_update (st : Storage) (id : Nat) (now : Int)
    (l1 l2 : List Task) (t : Task)
    (he : st.tasks = l1 ++ t :: l2) (hl1 : ∀ x ∈ l1, x.id ≠ id)
    (hid : t.id = id) :
    LocalTaskService.updateTask st id {} now =
      Except.ok ({ st with tasks := l1 ++ { t with updatedAt := now } :: l2 },
        { t with updatedAt := now }) := by
  unfold LocalTaskService.updateTask
  rw [he, LocalTaskService.updateTaskList_decomp l1 l2 t id {} now hl1 hid]
  rfl

theorem C8_witness :
    LocalTaskService.updateTask
        { tasks := [{ id := 0, noteId := none, title := "a", description := none,
                      status := TaskStatus.todo, priority := TaskPriority.low,
                      dueDate := none, estimatedMinutes := none, actualMinutes := 3,
                      tags := ["x"], createdAt := 0, updatedAt := 0,
                      completedAt := none },
                    { id := 1, noteId := none, title := "b", description := none,
                      status := TaskStatus.done, priority := TaskPriority.high,
                      dueDate := some 11, estimatedMinutes := some 4,
                      actualMinutes := 8, tags := [], createdAt := 1,
                      updatedAt := 2, completedAt := some 2 }], sessions := [] }
        1 {} 9 =
      Except.ok
        ({ tasks := [{ id := 0, noteId := none, title := "a", description := none,
                       status := TaskStatus.todo, priority := TaskPriority.low,
                       dueDate := none, estimatedMinutes := none, actualMinutes := 3,
                       tags := ["x"], createdAt := 0, updatedAt := 0,
                       completedAt := none },
                     { id := 1, noteId := none, title := "b", description := none,
                       status := TaskStatus.done, priority := TaskPriority.high,
                       dueDate := some 11, estimatedMinutes := some 4,
                       actualMinutes := 8, tags := [], createdAt := 1,
                       updatedAt := 9, completedAt := some 2 }], sessions := [] },
          { id := 1, noteId := none, title := "b", description := none,
            status := TaskStatus.done, priority := TaskPriority.high,
            dueDate := some 11, estimatedMinutes := some 4, actualMinutes := 8,
            tags := [], createdAt := 1, updatedAt := 9,
            completedAt := some 2 }) := by
  exact C8_empty_update _ 1 9
    [{ id := 0, noteId := none, title := "a", description := none,
       status := TaskStatus.todo, priority := TaskPriority.low,
       dueDate := none, estimatedMinutes := none, actualMinutes := 3,
       tags := ["x"], createdAt := 0, updatedAt := 0, completedAt := none }] []
    { id := 1, noteId := none, title := "b", description := none,
      status := TaskStatus.done, priority := TaskPriority.high,
      dueDate := some 11, estimatedMinutes := some 4, actualMinutes := 8,
      tags := [], createdAt := 1, updatedAt := 2, completedAt := some 2 }
    rfl (by decide) rfl

/-- C9: `timeRemaining` is non-negative in the initial timer state, every
engine operation preserves its non-negativity provided the configured
`workDuration` is non-negative, and the tick that would take it to 0 or
below clamps it to exactly 0. -/
theorem C9_timeRemaining_nonneg :
    0 ≤ Engine.initEngine.timer.timeRemaining ∧
    (∀ a b : Engine.EngineState, Engine.Step a b →
      0 ≤ a.settings.workDuration → 0 ≤ a.timer.timeRemaining →
      0 ≤ b.timer.timeRemaining) ∧
    (∀ e : Engine.EngineState, e.timer.isRunning = true →
      e.timer.isPaused = false → e.timer.timeRemaining - 1 ≤ 0 →
      (Engine.tick e).timer.timeRemaining = 0) := by
  refine ⟨by norm_num [Engine.initEngine, initialTimerState], ?_, ?_⟩
  · intro a b hs hw ht
    cases hs with
    | createTask dto now => exact ht
    | updateTask id dto now h => rw [Engine.timer_updateTask]; exact ht
    | deleteTask id => exact ht
    | createSession dto now => exact ht
    | startTask taskId now =>
      unfold Engine.startTask
      cases LocalTaskService.updateTask a.storage taskId
          { status := some TaskStatus.in_progress } now with
      | error err => exact ht
      | ok p =>
        show 0 ≤ a.settings.workDuration * 60
        exact mul_nonneg hw (by norm_num)
    | togglePause => exact ht
    | stopTask now ach pend =>
      cases hcs : a.currentSession with
      | none => rw [Engine.stopTask_none a now ach pend hcs]; exact ht
      | some cs =>
        rw [Engine.stopTask_some a now ach pend cs hcs]
        cases LocalTaskService.updateSession a.storage cs.id
            (Engine.stopDto a now ach pend cs) now with
        | error err => exact ht
        | ok p =>
          show 0 ≤ a.settings.workDuration * 60
          exact mul_nonneg hw (by norm_num)
    | completeTask taskId now =>
      rw [show Engine.completeTask a taskId now = Engine.updateTask a taskId
        { status := some TaskStatus.done } now from rfl, Engine.timer_updateTask]
      exact ht
    | tick =>
      by_cases hc : (a.timer.isRunning && !a.timer.isPaused) = true
      · rw [Bool.and_eq_true] at hc
        have hr : a.timer.isRunning = true := hc.1
        have hp : a.timer.isPaused = false := by simpa using hc.2
        by_cases h0 : a.timer.timeRemaining - 1 ≤ 0
        · rw [Engine.tick_complete a hr hp h0]
        · rw [Engine.tick_decrement a hr hp (by omega)]
          show 0 ≤ a.timer.timeRemaining - 1
          omega
      · rw [Engine.tick_noop a (by simpa using hc)]
        exact ht
    | updateSettings s => exact ht
  · intro e hr hp h0
    rw [Engine.tick_complete e hr hp h0]

theorem C9_witness :
    (0 ≤ Engine.initEngine.timer.timeRemaining) ∧
    (0 ≤ (Engine.tick (Engine.startTask (Engine.createTask Engine.initEngine
      { title := "a" } 0) 0 0)).timer.timeRemaining) ∧
    ((Engine.tick (⟨⟨[], []⟩, none, none,
        ⟨true, false, 1, 1500, SessionType.pomodoro, 0⟩,
        DEFAULT_POMODORO_SETTINGS, 0, 0⟩ : Engine.EngineState)).timer.timeRemaining
      = 0) := by
  refine ⟨C9_timeRemaining_nonneg.1, ?_, ?_⟩
  · exact C9_timeRemaining_nonneg.2.1 _ _ (Engine.Step.tick _) (by decide)
      (by decide)
  · exact C9_timeRemaining_nonneg.2.2 _ rfl rfl (by decide)

/-- C10: updating (in particular closing) a session whose `taskId` matches
no stored task succeeds: the merged session is persisted and returned,
no error is raised, and the stored tasks are untouched — the
`actualMinutes` credit is silently skipped because `getTaskById` came
back empty. -/
theorem C10_orphan_session (st : Storage) (sid : Nat) (dto : UpdateSessionDto)
    (now : Int) (l1 l2 : List TaskSession) (s : TaskSession)
    (he : st.sessions = l1 ++ s :: l2) (hl1 : ∀ x ∈ l1, x.id ≠ sid)
    (hs : s.id = sid) (horphan : ∀ t ∈ st.tasks, t.id ≠ s.taskId) :
    LocalTaskService.updateSession st sid dto now =
      Except.ok ({ st with sessions :=
          l1 ++ LocalTaskService.applySessionUpdate s dto :: l2 },
        LocalTaskService.applySessionUpdate s dto) ∧
    ({ st with sessions :=
        l1 ++ LocalTaskService.applySessionUpdate s dto :: l2 } : Storage).tasks =
      st.tasks := by
  refine ⟨?_, rfl⟩
  apply LocalTaskService.updateSession_no_credit st sid dto now l1 l2 s he hl1 hs
  cases hd : dto.durationMinutes with
  | none => exact Or.inl rfl
  | some d =>
    exact Or.inr (Or.inr ⟨d, rfl,
      LocalTaskService.getTaskById_eq_none st _ horphan⟩)

theorem C10_witness :
    LocalTaskService.updateSession
        { tasks := [],
          sessions := [⟨0, 42, 0, none, 0, SessionType.pomodoro, false,
            none, none, none⟩] } 0
        { endedAt := some 9, durationMinutes := some 5, completed := some true }
        9 =
      Except.ok
        ({ tasks := [],
           sessions := [⟨0, 42, 0, some 9, 5, SessionType.pomodoro, true,
             none, none, none⟩] },
          ⟨0, 42, 0, some 9, 5, SessionType.pomodoro, true, none, none,
            none⟩) := by
  have h := C10_orphan_session
    { tasks := [],
      sessions := [⟨0, 42, 0, none, 0, SessionType.pomodoro, false,
        none, none, none⟩] } 0
    { endedAt := some 9, durationMinutes := some 5, completed := some true } 9
    [] [] ⟨0, 42, 0, none, 0, SessionType.pomodoro, false, none, none, none⟩
    rfl (by simp) rfl (by simp)
  rw [h.1]
  rfl

end Manovyam
